import Mathlib

/-!
# IOMarket: settlement of expired market offers

A shallow embedding of `src/iomarket.cpp`: the two market tables are lists of
rows, the SQL statements built by the code are list operations on them, and the
live-world collaborators (players, inboxes, item definitions, scheduler) are
small explicit models.  Machine integers are natural numbers or integers with
the narrowing written out where the C++ types narrow.
-/

set_option autoImplicit false

namespace IOMarket

/-! ## Machine integers -/

/-- Reading a column with `getNumber<uint16_t>`: the value as a 16-bit unsigned integer. -/
def getNumber16 (v : Nat) : Nat := v % 65536

/-- Reading a column with `getNumber<uint32_t>`: the value as a 32-bit unsigned integer. -/
def getNumber32 (v : Nat) : Nat := v % 4294967296

/-- Reading a column with `getNumber<uint64_t>`: the value as a 64-bit unsigned integer. -/
def getNumber64 (v : Nat) : Nat := v % 18446744073709551616

/-- Result of an expression of type `uint32_t`: reduction modulo 2^32. -/
def toUInt32 (x : Int) : Nat := (x % 4294967296).toNat

/-- Conversion to `int32_t`: the representative of `x` modulo 2^32 in [-2^31, 2^31). -/
def toInt32 (x : Int) : Int := (x + 2147483648) % 4294967296 - 2147483648

/-! ## Enumerations and rows -/

/-- Modelled from the spec: the enumeration `MarketOfferState_t` (declared outside
`iomarket.cpp`); the terminal states of a history offer are ACCEPTED, ACCEPTED_EX,
EXPIRED and CANCELLED. -/
inductive MarketOfferState_t where
  | OFFERSTATE_CANCELLED
  | OFFERSTATE_EXPIRED
  | OFFERSTATE_ACCEPTED
  | OFFERSTATE_ACCEPTEDEX
deriving DecidableEq, Repr

/-- Modelled from the spec: `MARKETACTION_BUY` of the enumeration `MarketAction_t`
(declared outside `iomarket.cpp`).  The direction is BUY or SELL; the settlement
code returns items when `sale == 1`, which is the SELL direction, so BUY is 0. -/
def MARKETACTION_BUY : Nat := 0

/-- Modelled from the spec: `MARKETACTION_SELL`, the direction whose offers reserve
items (`sale == 1` in `processExpiredOffers`). -/
def MARKETACTION_SELL : Nat := 1

/-- A row of the table `market_offers`. -/
structure OfferRow where
  id : Nat
  player_id : Nat
  sale : Nat
  itemtype : Nat
  amount : Nat
  price : Nat
  created : Nat
  anonymous : Nat
deriving DecidableEq, Repr

/-- A row of the table `market_history`. -/
structure HistoryRow where
  player_id : Nat
  sale : Nat
  itemtype : Nat
  amount : Nat
  price : Nat
  expires_at : Nat
  inserted : Nat
  state : MarketOfferState_t
deriving DecidableEq, Repr

/-- A row of the result set of the expiration query of `checkExpiredOffers`
(columns `id`, `amount`, `price`, `itemtype`, `player_id`, `sale`). -/
structure ExpiredRow where
  id : Nat
  amount : Nat
  price : Nat
  itemtype : Nat
  player_id : Nat
  sale : Nat
deriving DecidableEq, Repr

/-! ## The live world -/

/-- Modelled from the spec: an item definition as `resolveItemDefinition` gives it
(`ItemType`, declared outside `iomarket.cpp`): its id (0 when undefined), whether
it stacks, and its charge count (0 when it has none). -/
structure ItemType where
  id : Nat
  stackable : Bool
  charges : Nat
deriving DecidableEq, Repr

/-- Modelled from the spec: an item instance made by `Item::CreateItem(id, count)`;
`count` is the stack size, the charge count, or -1 for an unset sub-value. -/
structure Item where
  id : Nat
  count : Int
deriving DecidableEq, Repr

/-- Modelled from the spec: a player record (`Player`, declared outside
`iomarket.cpp`): owner id, name, bank balance, and the inbox.  The inbox accepts
`inboxRoom` further insertions and refuses every insertion after that;
`inboxRejected` counts the insertions it has refused. -/
structure Player where
  guid : Nat
  name : String
  bankBalance : Nat
  inbox : List Item
  inboxRoom : Nat
  inboxRejected : Nat
deriving DecidableEq, Repr

/-- The persistent store and the live world seen by the market code: the two
market tables, the connected players, and the persisted player records (the
table `players`). -/
structure State where
  market_offers : List OfferRow
  market_history : List HistoryRow
  onlinePlayers : List Player
  storedPlayers : List Player
deriving DecidableEq, Repr

/-- The values the code reads from its surroundings: the two configuration
numbers, which the code holds in `int32_t` variables (so they lie in
[-2^31, 2^31)), the item definitions `Item::items`, and the clock
`time(nullptr)`. -/
structure Env where
  marketOfferDuration : Int
  checkExpiredMarketOffersEachMinutes : Int
  items : Nat → ItemType
  now : Nat

/-- Modelled from the spec: `Game::getPlayerByGUID`, the connected player with this
owner id, if any (`getConnectedPlayerByOwnerId`). -/
def getPlayerByGUID (s : State) (guid : Nat) : Option Player :=
  s.onlinePlayers.find? (fun p => decide (p.guid = guid))

/-- Modelled from the spec: `IOLoginData::loadPlayerById`, a transient instance of
the persisted player with this id, if there is one (`loadOfflinePlayer`). -/
def loadPlayerById (s : State) (id : Nat) : Option Player :=
  s.storedPlayers.find? (fun p => decide (p.guid = id))

/-- Modelled from the spec: `IOLoginData::savePlayer`, which persists a transient
player instance (`persistPlayer`). -/
def savePlayer (s : State) (player : Player) : State :=
  { s with storedPlayers :=
      s.storedPlayers.map (fun q => if q.guid = player.guid then player else q) }

/-- A connected player is a live object that the code mutates in place; the
model writes the mutated object back to the list of connected players. -/
def updateLivePlayer (s : State) (player : Player) : State :=
  { s with onlinePlayers :=
      s.onlinePlayers.map (fun q => if q.guid = player.guid then player else q) }

/-- Modelled from the spec: `IOLoginData::increaseBankBalance`, the direct
persistent increment of a stored balance (`increaseOfflineBankBalance`). -/
def increaseBankBalance (s : State) (guid : Nat) (bankBalance : Nat) : State :=
  { s with storedPlayers :=
      s.storedPlayers.map (fun q =>
        if q.guid = guid then { q with bankBalance := q.bankBalance + bankBalance } else q) }

/-- Modelled from the spec: `Game::internalAddItem` into the inbox of a player
(`insertIntoInbox`): `true` stands for `RETURNVALUE_NOERROR`, `false` for a
refusal (capacity exceeded). -/
def internalAddItem (player : Player) (item : Item) : Player × Bool :=
  if player.inboxRoom = 0 then
    ({ player with inboxRejected := player.inboxRejected + 1 }, false)
  else
    ({ player with inbox := player.inbox ++ [item], inboxRoom := player.inboxRoom - 1 }, true)

/-! ## History archive -/

/-- `IOMarket::appendHistory`: one row inserted into `market_history`.  The insert
is handed to the database task queue; the model applies it at once. -/
def appendHistory (env : Env) (playerId type itemId amount price timestamp : Nat)
    (state : MarketOfferState_t) (s : State) : State :=
  { s with market_history := s.market_history ++
      [{ player_id := playerId, sale := type, itemtype := itemId, amount := amount,
         price := price, expires_at := timestamp, inserted := env.now, state := state }] }

/-- `IOMarket::moveOfferToHistory`.  The `SELECT ... WHERE id = offerId` yields no
result when no row has that id; the `DELETE` removes the rows with that id and is
taken to execute successfully. -/
def moveOfferToHistory (env : Env) (offerId : Nat) (state : MarketOfferState_t)
    (s : State) : State × Bool :=
  match s.market_offers.find? (fun r => decide (r.id = offerId)) with
  | none => (s, false)
  | some result =>
    let s1 : State :=
      { s with market_offers := s.market_offers.filter (fun r => decide (r.id ≠ offerId)) }
    (appendHistory env (getNumber32 result.player_id) (getNumber16 result.sale)
        (getNumber16 result.itemtype) (getNumber16 result.amount) (getNumber32 result.price)
        (toUInt32 ((getNumber32 result.created : Int) + env.marketOfferDuration)) state s1,
      true)

/-! ## Settlement -/

/-- The stackable branch of `processExpiredOffers`: the loop
`while (tmpAmount > 0)` with its break on a refused insertion.  The first
argument bounds the number of iterations; `tmpAmount` iterations always suffice
because each one removes at least one unit. -/
def deliverStackable (itemId : Nat) : Nat → Nat → Player → Player
  | 0, _, player => player
  | fuel + 1, tmpAmount, player =>
    if tmpAmount > 0 then
      let stackCount := min 100 tmpAmount
      match internalAddItem player { id := itemId, count := (stackCount : Int) } with
      | (player1, true) => deliverStackable itemId fuel ((tmpAmount - stackCount) % 65536) player1
      | (player1, false) => player1
    else
      player

/-- The non-stackable branch of `processExpiredOffers`: the loop
`for (i = 0; i < amount; ++i)` with its break on a refused insertion; the first
numeric argument is the number of iterations left. -/
def deliverSingles (itemId : Nat) (subType : Int) : Nat → Player → Player
  | 0, player => player
  | n + 1, player =>
    match internalAddItem player { id := itemId, count := subType } with
    | (player1, true) => deliverSingles itemId subType n player1
    | (player1, false) => player1

/-- The delivery of `amount` units of an item into the inbox of `player`. -/
def deliverItems (itemType : ItemType) (amount : Nat) (player : Player) : Player :=
  if itemType.stackable then
    deliverStackable itemType.id amount amount player
  else
    deliverSingles itemType.id
      (if itemType.charges ≠ 0 then (itemType.charges : Int) else -1) amount player

/-- The part of the loop body of `processExpiredOffers` that follows a successful
`moveOfferToHistory`: the items of a sell offer go to the inbox of the owner, the
reserved currency of a buy offer goes to the bank balance of the owner. -/
def refundOwner (env : Env) (row : ExpiredRow) (s1 : State) : State :=
  let playerId := getNumber32 row.player_id
  let amount := getNumber16 row.amount
  if getNumber16 row.sale = 1 then
    let itemType := env.items (getNumber16 row.itemtype)
    if itemType.id = 0 then
      s1
    else
      match getPlayerByGUID s1 playerId with
      | some player => updateLivePlayer s1 (deliverItems itemType amount player)
      | none =>
        match loadPlayerById s1 playerId with
        | none => s1
        | some player => savePlayer s1 (deliverItems itemType amount player)
  else
    let totalPrice := (getNumber64 row.price * amount) % 18446744073709551616
    match getPlayerByGUID s1 playerId with
    | some player =>
      updateLivePlayer s1
        { player with bankBalance := (player.bankBalance + totalPrice) % 18446744073709551616 }
    | none => increaseBankBalance s1 playerId totalPrice

/-- One iteration of the `do ... while (result->next())` loop of
`processExpiredOffers`, on one row of the result set: the offer is archived
first, and the row is skipped when that fails. -/
def settleRow (env : Env) (row : ExpiredRow) (s : State) : State :=
  match moveOfferToHistory env (getNumber32 row.id) .OFFERSTATE_EXPIRED s with
  | (s1, false) => s1
  | (s1, true) => refundOwner env row s1

/-- `IOMarket::processExpiredOffers`: the rows of the result set are settled in
order; an absent result set is the empty list. -/
def processExpiredOffers (env : Env) (result : List ExpiredRow) (s : State) : State :=
  result.foldl (fun acc row => settleRow env row acc) s

/-! ## Expiration sweep -/

/-- The functions the sweeper registers as callbacks. -/
inductive Callback where
  | processExpiredOffers
  | checkExpiredOffers
deriving DecidableEq, Repr

/-- A task handed to `g_databaseTasks.addTask`: the expiration query, given by the
bound it compares `created` with, its completion callback and the store flag. -/
structure DatabaseTask where
  lastExpireDate : Int
  callback : Callback
  store : Bool
deriving DecidableEq, Repr

/-- A task handed to `g_scheduler.addEvent`: delay in milliseconds and callback. -/
structure SchedulerTask where
  delay : Int
  callback : Callback
deriving DecidableEq, Repr

/-- What the sweeper has handed to the database task queue and to the scheduler. -/
structure Dispatch where
  databaseTasks : List DatabaseTask
  schedulerEvents : List SchedulerTask
deriving DecidableEq, Repr

/-- The expiration query of `checkExpiredOffers` evaluated on the offer table. -/
def expiredOffersQuery (lastExpireDate : Int) (offers : List OfferRow) : List ExpiredRow :=
  (offers.filter (fun r => decide ((r.created : Int) ≤ lastExpireDate))).map
    (fun r => { id := r.id, amount := r.amount, price := r.price, itemtype := r.itemtype,
                player_id := r.player_id, sale := r.sale })

/-- `IOMarket::checkExpiredOffers`.  The delay is the `int32_t` product
`checkExpiredMarketOffersEachMinutes * 60 * 1000`. -/
def checkExpiredOffers (env : Env) (d : Dispatch) : Dispatch :=
  let lastExpireDate : Int := (env.now : Int) - env.marketOfferDuration
  let d1 : Dispatch :=
    { d with databaseTasks := d.databaseTasks ++
        [{ lastExpireDate := lastExpireDate, callback := .processExpiredOffers, store := true }] }
  let checkExpiredMarketOffersEachMinutes := env.checkExpiredMarketOffersEachMinutes
  if checkExpiredMarketOffersEachMinutes ≤ 0 then
    d1
  else
    { d1 with schedulerEvents := d1.schedulerEvents ++
        [{ delay := toInt32 (toInt32 (checkExpiredMarketOffersEachMinutes * 60) * 1000),
           callback := .checkExpiredOffers }] }

/-! ## Offer repository -/

/-- The view of an offer sent to clients (`MarketOffer`). -/
structure MarketOffer where
  price : Nat
  timestamp : Nat
  amount : Nat
  counter : Nat
  itemId : Nat
  playerName : String
deriving DecidableEq, Repr

/-- The full view of an offer (`MarketOfferEx`). -/
structure MarketOfferEx where
  id : Nat
  playerId : Nat
  timestamp : Nat
  price : Nat
  amount : Nat
  counter : Nat
  itemId : Nat
  type : Nat
  playerName : String
deriving DecidableEq, Repr

/-- The sub-select `(SELECT name FROM players WHERE id = player_id)` together with
the test on `anonymous`. -/
def offerPlayerName (s : State) (r : OfferRow) : String :=
  if getNumber16 r.anonymous = 0 then
    match s.storedPlayers.find? (fun p => decide (p.guid = r.player_id)) with
    | some p => p.name
    | none => ""
  else
    "Anonymous"

/-- `IOMarket::getActiveOffers`. -/
def getActiveOffers (env : Env) (action itemId : Nat) (s : State) : List MarketOffer :=
  (s.market_offers.filter (fun r => decide (r.sale = action ∧ r.itemtype = itemId))).map
    (fun r =>
      { amount := getNumber16 r.amount
        price := getNumber32 r.price
        timestamp := toUInt32 ((getNumber32 r.created : Int) + env.marketOfferDuration)
        counter := getNumber32 r.id % 65536
        itemId := 0
        playerName := offerPlayerName s r })

/-- `IOMarket::getOwnOffers`. -/
def getOwnOffers (env : Env) (action playerId : Nat) (s : State) : List MarketOffer :=
  (s.market_offers.filter (fun r => decide (r.player_id = playerId ∧ r.sale = action))).map
    (fun r =>
      { amount := getNumber16 r.amount
        price := getNumber32 r.price
        timestamp := toUInt32 ((getNumber32 r.created : Int) + env.marketOfferDuration)
        counter := getNumber32 r.id % 65536
        itemId := getNumber16 r.itemtype
        playerName := "" })

/-- `IOMarket::getOfferByCounter`.  `created` is an `int32_t`; the query takes the
first row whose `created` equals it and whose id has the given low 16 bits. -/
def getOfferByCounter (env : Env) (timestamp counter : Nat) (s : State) : MarketOfferEx :=
  let created : Int := toInt32 ((timestamp : Int) - env.marketOfferDuration)
  match s.market_offers.find?
      (fun r => decide ((r.created : Int) = created ∧ r.id % 65536 = counter)) with
  | none =>
    { id := 0, playerId := 0, timestamp := 0, price := 0, amount := 0, counter := 0,
      itemId := 0, type := 0, playerName := "" }
  | some result =>
    { id := getNumber32 result.id
      type := getNumber16 result.sale
      amount := getNumber16 result.amount
      counter := getNumber32 result.id % 65536
      timestamp := getNumber32 result.created
      price := getNumber32 result.price
      itemId := getNumber16 result.itemtype
      playerId := getNumber32 result.player_id
      playerName := offerPlayerName s result }

/-- `IOMarket::acceptOffer`: the amount of the offer is reduced. -/
def acceptOffer (offerId amount : Nat) (s : State) : State :=
  { s with market_offers :=
      s.market_offers.map (fun r =>
        if r.id = offerId then { r with amount := r.amount - amount } else r) }

/-- `IOMarket::deleteOffer`. -/
def deleteOffer (offerId : Nat) (s : State) : State :=
  { s with market_offers := s.market_offers.filter (fun r => decide (r.id ≠ offerId)) }

/-! ## Statistics -/

/-- The cached aggregate of one item in one direction (`MarketStatistics`). -/
structure MarketStatistics where
  numTransactions : Nat
  highestPrice : Nat
  totalPrice : Nat
  lowestPrice : Nat
deriving DecidableEq, Repr

/-- The two maps `purchaseStatistics` and `saleStatistics`, keyed by item id. -/
structure StatisticsCache where
  purchaseStatistics : Nat → Option MarketStatistics
  saleStatistics : Nat → Option MarketStatistics

/-- A row of the grouped query of `updateStatistics`. -/
structure StatisticsRow where
  sale : Nat
  itemtype : Nat
  num : Nat
  min : Nat
  max : Nat
  sum : Nat
deriving DecidableEq, Repr

/-- SQL `MIN` over a non-empty group. -/
def minPrice : List Nat → Nat
  | [] => 0
  | p :: ps => ps.foldl min p

/-- SQL `MAX` over a non-empty group. -/
def maxPrice : List Nat → Nat
  | [] => 0
  | p :: ps => ps.foldl max p

/-- The history rows with state ACCEPTED of one item in one direction. -/
def acceptedRows (hist : List HistoryRow) (itemtype sale : Nat) : List HistoryRow :=
  hist.filter (fun r =>
    decide (r.state = .OFFERSTATE_ACCEPTED ∧ r.itemtype = itemtype ∧ r.sale = sale))

/-- The query of `updateStatistics`: `COUNT`, `MIN`, `MAX` and `SUM` of `price` over
the rows with `state = OFFERSTATE_ACCEPTED`, grouped by `itemtype` and `sale`. -/
def statisticsQuery (hist : List HistoryRow) : List StatisticsRow :=
  let accepted := hist.filter (fun r => decide (r.state = .OFFERSTATE_ACCEPTED))
  let groups := (accepted.map (fun r => (r.itemtype, r.sale))).dedup
  groups.map (fun g =>
    let prices := (acceptedRows hist g.1 g.2).map (fun r => r.price)
    { sale := g.2, itemtype := g.1, num := prices.length, min := minPrice prices,
      max := maxPrice prices, sum := prices.sum })

/-- The assignment `map[key] = value` on a `std::map`. -/
def mapSet (m : Nat → Option MarketStatistics) (key : Nat) (value : MarketStatistics) :
    Nat → Option MarketStatistics :=
  fun k => if k = key then some value else m k

/-- The body of the loop of `updateStatistics` on one row of the grouped query. -/
def storeStatistics (cached : StatisticsCache) (row : StatisticsRow) : StatisticsCache :=
  let statistics : MarketStatistics :=
    { numTransactions := getNumber32 row.num
      lowestPrice := getNumber32 row.min
      totalPrice := getNumber64 row.sum
      highestPrice := getNumber32 row.max }
  if getNumber16 row.sale = MARKETACTION_BUY then
    { cached with
      purchaseStatistics := mapSet cached.purchaseStatistics (getNumber16 row.itemtype) statistics }
  else
    { cached with
      saleStatistics := mapSet cached.saleStatistics (getNumber16 row.itemtype) statistics }

/-- `IOMarket::updateStatistics`: nothing happens when the query has no rows. -/
def updateStatistics (hist : List HistoryRow) (cached : StatisticsCache) : StatisticsCache :=
  match statisticsQuery hist with
  | [] => cached
  | row :: rows => (row :: rows).foldl storeStatistics cached

/-- `IOMarket::getPurchaseStatistics`. -/
def getPurchaseStatistics (cached : StatisticsCache) (itemId : Nat) : Option MarketStatistics :=
  cached.purchaseStatistics itemId

/-- `IOMarket::getSaleStatistics`. -/
def getSaleStatistics (cached : StatisticsCache) (itemId : Nat) : Option MarketStatistics :=
  cached.saleStatistics itemId

/-- The statistics of one direction, as the two getters give them. -/
def getStatistics (cached : StatisticsCache) (sale itemId : Nat) : Option MarketStatistics :=
  if sale = MARKETACTION_BUY then getPurchaseStatistics cached itemId
  else getSaleStatistics cached itemId

/-- The cache before any refresh. -/
def emptyCache : StatisticsCache :=
  { purchaseStatistics := fun _ => none, saleStatistics := fun _ => none }

/-! ## Well-formed rows and example data -/

/-- The columns of an offer row hold values of the C++ types the code reads them
into (`uint32_t` for ids, prices and timestamps, `uint16_t` for the others). -/
def OfferRow.typed (r : OfferRow) : Prop :=
  r.id < 4294967296 ∧ r.player_id < 4294967296 ∧ r.sale < 65536 ∧ r.itemtype < 65536 ∧
    r.amount < 65536 ∧ r.price < 4294967296 ∧ r.created < 4294967296

instance (r : OfferRow) : Decidable r.typed := by
  unfold OfferRow.typed; infer_instance

/-- The columns of a row of the expiration result set hold values of the C++
types the code reads them into. -/
def ExpiredRow.typed (r : ExpiredRow) : Prop :=
  r.id < 4294967296 ∧ r.player_id < 4294967296 ∧ r.sale < 65536 ∧ r.itemtype < 65536 ∧
    r.amount < 65536 ∧ r.price < 4294967296

instance (r : ExpiredRow) : Decidable r.typed := by
  unfold ExpiredRow.typed; infer_instance

/-- An environment with a 30-day offer duration, an hourly sweep, a stackable
item 10 and a non-stackable item 11 with 5 charges; every other item id is
undefined. -/
def exampleEnv : Env :=
  { marketOfferDuration := 2592000
    checkExpiredMarketOffersEachMinutes := 60
    items := fun i =>
      if i = 10 then ⟨10, true, 0⟩ else if i = 11 then ⟨11, false, 5⟩ else ⟨0, false, 0⟩
    now := 1700000000 }

/-- A state with four active offers, one connected player and two stored players. -/
def exampleState : State :=
  { market_offers :=
      [⟨1, 7, 1, 10, 250, 3, 100, 0⟩, ⟨2, 8, 0, 10, 4, 25, 100, 0⟩,
       ⟨65536, 7, 1, 11, 3, 3, 100, 0⟩, ⟨131072, 8, 1, 10, 3, 3, 200, 0⟩]
    market_history := []
    onlinePlayers := [⟨8, "eight", 1000, [], 5, 0⟩]
    storedPlayers := [⟨7, "seven", 50, [], 2, 0⟩, ⟨8, "eight", 900, [], 5, 0⟩] }

/-- An environment whose offer duration is one second. -/
def wrapEnv : Env := { exampleEnv with marketOfferDuration := 1 }

/-- A state whose only offer was created at the last 32-bit timestamp. -/
def wrapState : State :=
  { market_offers := [⟨1, 7, 1, 10, 5, 3, 4294967295, 0⟩], market_history := [],
    onlinePlayers := [], storedPlayers := [] }

/-- The buy offer of `exampleState`. -/
def exampleOffer : OfferRow := ⟨2, 8, 0, 10, 4, 25, 100, 0⟩

/-- A state with a sell offer for item 99, which `exampleEnv` does not define,
and a buy offer. -/
def undefinedItemState : State :=
  { market_offers := [⟨5, 7, 1, 99, 2, 3, 100, 0⟩, ⟨2, 8, 0, 10, 4, 25, 100, 0⟩]
    market_history := []
    onlinePlayers := [⟨8, "eight", 1000, [], 5, 0⟩]
    storedPlayers := [⟨7, "seven", 50, [], 2, 0⟩, ⟨8, "eight", 900, [], 5, 0⟩] }

/-- The result-set row of the sell offer for the undefined item 99. -/
def undefinedItemRow : ExpiredRow := ⟨5, 2, 3, 99, 7, 1⟩

/-- The result-set row of the buy offer 2 (4 units at price 25, owner 8). -/
def exampleBuyRow : ExpiredRow := ⟨2, 4, 25, 10, 8, 0⟩

/-- A state in which the connected owner of a buy offer holds the largest 64-bit
bank balance. -/
def fullBalanceState : State :=
  { market_offers := [⟨2, 8, 0, 10, 1, 1, 100, 0⟩]
    market_history := []
    onlinePlayers := [⟨8, "eight", 18446744073709551615, [], 5, 0⟩]
    storedPlayers := [⟨8, "eight", 900, [], 5, 0⟩] }

/-- The result-set row of the buy offer of `fullBalanceState` (1 unit at price 1). -/
def fullBalanceRow : ExpiredRow := ⟨2, 1, 1, 10, 8, 0⟩

/-- The stackable item 10 of `exampleEnv`. -/
def exampleStackable : ItemType := ⟨10, true, 0⟩

/-- A player whose inbox has room for two more insertions. -/
def examplePlayer : Player := ⟨7, "seven", 50, [], 2, 0⟩

/-- The sell offer 65536 of `exampleState`, whose handle counter is 0. -/
def exampleHandleOffer : OfferRow := ⟨65536, 7, 1, 11, 3, 3, 100, 0⟩

/-- A state whose only offer was created at timestamp 2^31. -/
def lateState : State :=
  { market_offers := [⟨1, 7, 1, 10, 5, 3, 2147483648, 0⟩], market_history := [],
    onlinePlayers := [], storedPlayers := [⟨7, "seven", 50, [], 2, 0⟩] }

/-- An environment whose sweep interval is 71583 minutes. -/
def longIntervalEnv : Env := { exampleEnv with checkExpiredMarketOffersEachMinutes := 71583 }

/-- An environment whose sweep interval is 0 minutes. -/
def zeroIntervalEnv : Env := { exampleEnv with checkExpiredMarketOffersEachMinutes := 0 }

/-- Nothing handed to the task queue or the scheduler yet. -/
def emptyDispatch : Dispatch := { databaseTasks := [], schedulerEvents := [] }

/-- A state with a buy offer for 4 units at price 25 (owner 8, connected) and a
sell offer for 4 units of the stackable item 10 (owner 7, not connected). -/
def staleState : State :=
  { market_offers := [⟨2, 8, 0, 10, 4, 25, 100, 0⟩, ⟨3, 7, 1, 10, 4, 30, 100, 0⟩]
    market_history := []
    onlinePlayers := [⟨8, "eight", 1000, [], 5, 0⟩]
    storedPlayers := [⟨7, "seven", 50, [], 2, 0⟩, ⟨8, "eight", 900, [], 5, 0⟩] }

/-- The columns of a history row that the statistics read hold a direction (BUY
or SELL), a 16-bit item id and a 32-bit price. -/
def HistoryRow.typed (r : HistoryRow) : Prop :=
  r.sale ≤ 1 ∧ r.itemtype < 65536 ∧ r.price < 4294967296

instance (r : HistoryRow) : Decidable r.typed := by
  unfold HistoryRow.typed; infer_instance

/-- The entry that `storeStatistics` writes for a row of the grouped query. -/
def statisticsOfRow (row : StatisticsRow) : MarketStatistics :=
  { numTransactions := getNumber32 row.num
    lowestPrice := getNumber32 row.min
    totalPrice := getNumber64 row.sum
    highestPrice := getNumber32 row.max }

/-- A history with two accepted sales of item 10 at prices 100 and 300, and an
expired sale of item 10 at price 500. -/
def exampleHistory : List HistoryRow :=
  [⟨1, 1, 10, 1, 100, 0, 0, .OFFERSTATE_ACCEPTED⟩, ⟨1, 1, 10, 1, 300, 0, 0, .OFFERSTATE_ACCEPTED⟩,
   ⟨1, 1, 10, 1, 500, 0, 0, .OFFERSTATE_EXPIRED⟩]

/-- A later history in which item 10 has no accepted row left and item 11 has one
accepted purchase. -/
def laterHistory : List HistoryRow :=
  [⟨2, 0, 11, 1, 70, 0, 0, .OFFERSTATE_ACCEPTED⟩, ⟨1, 1, 10, 1, 500, 0, 0, .OFFERSTATE_EXPIRED⟩]

/-! ## Lookups in the offer table -/

theorem find_id_of_mem_nodup (offers : List OfferRow) (r : OfferRow)
    (hr : r ∈ offers) (hn : (offers.map (fun x => x.id)).Nodup) :
    offers.find? (fun x => decide (x.id = r.id)) = some r := by
  induction offers with
  | nil => simp at hr
  | cons a l ih =>
    simp only [List.map_cons, List.nodup_cons, List.mem_map, not_exists, not_and] at hn
    rcases List.mem_cons.1 hr with h | h
    · subst h; simp
    · have hne : a.id ≠ r.id := fun e => hn.1 r h e.symm
      simp [List.find?_cons, hne, ih h hn.2]

theorem filter_id_of_mem_nodup (offers : List OfferRow) (r : OfferRow)
    (hr : r ∈ offers) (hn : (offers.map (fun x => x.id)).Nodup) :
    offers.filter (fun x => decide (x.id ≠ r.id)) = offers.filter (fun x => decide (x ≠ r)) := by
  apply List.filter_congr
  intro x hx
  by_cases h : x = r
  · subst h; simp
  · have : x.id ≠ r.id := by
      intro e
      exact h (List.inj_on_of_nodup_map hn hx hr e)
    simp [h, this]

theorem find_id_none (offers : List OfferRow) (offerId : Nat)
    (h : ∀ r ∈ offers, r.id ≠ offerId) :
    offers.find? (fun x => decide (x.id = offerId)) = none := by
  simp [List.find?_eq_none]; exact h

theorem find_id_filter_self (offers : List OfferRow) (offerId : Nat) :
    (offers.filter (fun r => decide (r.id ≠ offerId))).find? (fun r => decide (r.id = offerId))
      = none := by
  rw [List.find?_eq_none]
  intro a ha
  have := (List.mem_filter.1 ha).2
  simpa using this

theorem toUInt32_eq (x : Int) : ((toUInt32 x : Nat) : Int) = x % 4294967296 := by
  unfold toUInt32
  omega

/-! ## The refund step touches players only -/

theorem refundOwner_market_offers (env : Env) (row : ExpiredRow) (s : State) :
    (refundOwner env row s).market_offers = s.market_offers := by
  unfold refundOwner
  simp only
  split_ifs <;> (try split) <;> (try split) <;>
    simp [updateLivePlayer, savePlayer, increaseBankBalance]

theorem refundOwner_market_history (env : Env) (row : ExpiredRow) (s : State) :
    (refundOwner env row s).market_history = s.market_history := by
  unfold refundOwner
  simp only
  split_ifs <;> (try split) <;> (try split) <;>
    simp [updateLivePlayer, savePlayer, increaseBankBalance]

theorem refundOwner_players (env : Env) (row : ExpiredRow) (s t : State)
    (h1 : s.onlinePlayers = t.onlinePlayers) (h2 : s.storedPlayers = t.storedPlayers) :
    (refundOwner env row s).onlinePlayers = (refundOwner env row t).onlinePlayers ∧
      (refundOwner env row s).storedPlayers = (refundOwner env row t).storedPlayers := by
  unfold refundOwner
  simp only [getPlayerByGUID, loadPlayerById, h1, h2]
  split_ifs
  · exact ⟨h1, h2⟩
  · cases t.onlinePlayers.find? (fun p => decide (p.guid = getNumber32 row.player_id)) with
    | some p => simp [updateLivePlayer, h1, h2]
    | none =>
      cases t.storedPlayers.find? (fun p => decide (p.guid = getNumber32 row.player_id)) with
      | some p => simp [savePlayer, h1, h2]
      | none => exact ⟨h1, h2⟩
  · cases t.onlinePlayers.find? (fun p => decide (p.guid = getNumber32 row.player_id)) with
    | some p => simp [updateLivePlayer, h1, h2]
    | none => simp [increaseBankBalance, h1, h2]

/-! ## One settlement step -/

theorem settleRow_market_offers (env : Env) (row : ExpiredRow) (s : State) :
    (settleRow env row s).market_offers
      = s.market_offers.filter (fun r => decide (r.id ≠ getNumber32 row.id)) := by
  unfold settleRow moveOfferToHistory
  cases hf : s.market_offers.find? (fun r => decide (r.id = getNumber32 row.id)) with
  | none =>
    simp only
    symm
    rw [List.filter_eq_self]
    intro a ha
    have := List.find?_eq_none.1 hf a ha
    simpa using this
  | some r =>
    simp only [refundOwner_market_offers, appendHistory]

theorem settleRow_of_absent (env : Env) (row : ExpiredRow) (s : State)
    (h : s.market_offers.find? (fun r => decide (r.id = getNumber32 row.id)) = none) :
    settleRow env row s = s := by
  unfold settleRow moveOfferToHistory
  rw [h]

theorem settleRow_market_history (env : Env) (row : ExpiredRow) (s : State) :
    (settleRow env row s).market_history
      = (moveOfferToHistory env (getNumber32 row.id) .OFFERSTATE_EXPIRED s).1.market_history := by
  unfold settleRow
  cases hm : moveOfferToHistory env (getNumber32 row.id) .OFFERSTATE_EXPIRED s with
  | mk s1 b =>
    cases b with
    | false => rfl
    | true => simp only [refundOwner_market_history]

theorem moveOfferToHistory_history_length (env : Env) (offerId : Nat)
    (state : MarketOfferState_t) (s : State) :
    (moveOfferToHistory env offerId state s).1.market_history.length
      = s.market_history.length + (if ∃ r ∈ s.market_offers, r.id = offerId then 1 else 0) := by
  unfold moveOfferToHistory
  cases hf : s.market_offers.find? (fun r => decide (r.id = offerId)) with
  | none =>
    have : ¬ ∃ r ∈ s.market_offers, r.id = offerId := by
      rintro ⟨r, hr, e⟩
      have := List.find?_eq_none.1 hf r hr
      simp [e] at this
    simp [this]
  | some r =>
    have : ∃ r ∈ s.market_offers, r.id = offerId := by
      refine ⟨r, List.mem_of_find?_eq_some hf, ?_⟩
      have := List.find?_some hf
      simpa using this
    simp [this, appendHistory]

theorem processExpiredOffers_append (env : Env) (l1 l2 : List ExpiredRow) (s : State) :
    processExpiredOffers env (l1 ++ l2) s
      = processExpiredOffers env l2 (processExpiredOffers env l1 s) := by
  simp [processExpiredOffers, List.foldl_append]

theorem processExpiredOffers_cons (env : Env) (row : ExpiredRow) (l : List ExpiredRow)
    (s : State) :
    processExpiredOffers env (row :: l) s = processExpiredOffers env l (settleRow env row s) := by
  simp [processExpiredOffers]

/-! ## C1: settling twice -/

/-- Claim C1.  Settling a row of the expiration result set a second time changes
nothing: with `s1` the state after `processExpiredOffers` has handled the row once,
handling it again returns `s1` itself (no history row, no inbox insertion, no
balance change); at that point `moveOfferToHistory` returns false for the id; and
after the two runs the history has grown by exactly one row when the id was in
the active table at the start, and by none otherwise. -/
theorem processExpiredOffers_settle_twice (env : Env) (row : ExpiredRow) (s : State) :
    processExpiredOffers env [row] (processExpiredOffers env [row] s)
        = processExpiredOffers env [row] s ∧
      (moveOfferToHistory env (getNumber32 row.id) .OFFERSTATE_EXPIRED
          (processExpiredOffers env [row] s)).2 = false ∧
      (processExpiredOffers env [row] (processExpiredOffers env [row] s)).market_history.length
        = s.market_history.length
            + (if ∃ r ∈ s.market_offers, r.id = getNumber32 row.id then 1 else 0) := by
  have habs : (settleRow env row s).market_offers.find?
      (fun r => decide (r.id = getNumber32 row.id)) = none := by
    rw [settleRow_market_offers]; exact find_id_filter_self _ _
  have htwice : settleRow env row (settleRow env row s) = settleRow env row s :=
    settleRow_of_absent env row _ habs
  refine ⟨?_, ?_, ?_⟩
  · simpa [processExpiredOffers] using htwice
  · simp only [processExpiredOffers, List.foldl_cons, List.foldl_nil]
    unfold moveOfferToHistory
    rw [habs]
  · simp only [processExpiredOffers, List.foldl_cons, List.foldl_nil]
    rw [htwice, settleRow_market_history, moveOfferToHistory_history_length]

/-! ## C2: the archive step -/

/-- Claim C2, amended.  For a row `r` of an active table with distinct ids whose
columns fit the types they are read into, `moveOfferToHistory r.id state` returns
true, removes `r` and no other row, and appends exactly one history row with the
player id, direction, item id, amount and price of `r` and the given state; its
`expires_at` is `created + duration` reduced modulo 2^32 (the sum is formed in
32-bit unsigned arithmetic), which is `created + duration` itself whenever that
sum lies in [0, 2^32).  For an id that no row has, the call returns false and
leaves the state as it was. -/
theorem moveOfferToHistory_archives (env : Env) (s : State) (state : MarketOfferState_t) :
    (∀ r ∈ s.market_offers, (s.market_offers.map (fun x => x.id)).Nodup → r.typed →
      ∃ h : HistoryRow,
        moveOfferToHistory env r.id state s =
          ({ s with market_offers := s.market_offers.filter (fun x => decide (x ≠ r)),
                    market_history := s.market_history ++ [h] }, true) ∧
        h.player_id = r.player_id ∧ h.sale = r.sale ∧ h.itemtype = r.itemtype ∧
        h.amount = r.amount ∧ h.price = r.price ∧ h.state = state ∧
        (h.expires_at : Int) = ((r.created : Int) + env.marketOfferDuration) % 4294967296 ∧
        (0 ≤ (r.created : Int) + env.marketOfferDuration →
          (r.created : Int) + env.marketOfferDuration < 4294967296 →
          (h.expires_at : Int) = (r.created : Int) + env.marketOfferDuration)) ∧
    (∀ offerId, (∀ x ∈ s.market_offers, x.id ≠ offerId) →
      moveOfferToHistory env offerId state s = (s, false)) := by
  constructor
  · intro r hr hn ht
    obtain ⟨_, h2, h3, h4, h5, h6, h7⟩ := ht
    refine ⟨{ player_id := getNumber32 r.player_id, sale := getNumber16 r.sale,
              itemtype := getNumber16 r.itemtype, amount := getNumber16 r.amount,
              price := getNumber32 r.price,
              expires_at := toUInt32 ((getNumber32 r.created : Int) + env.marketOfferDuration),
              inserted := env.now, state := state }, ?_, ?_⟩
    · unfold moveOfferToHistory
      rw [find_id_of_mem_nodup _ r hr hn]
      simp only [appendHistory]
      rw [filter_id_of_mem_nodup _ r hr hn]
    · have e : ((toUInt32 ((getNumber32 r.created : Int) + env.marketOfferDuration) : Nat) : Int)
          = ((r.created : Int) + env.marketOfferDuration) % 4294967296 := by
        rw [toUInt32_eq]; unfold getNumber32; omega
      refine ⟨?_, ?_, ?_, ?_, ?_, rfl, e, ?_⟩
      · show getNumber32 r.player_id = r.player_id
        unfold getNumber32; omega
      · show getNumber16 r.sale = r.sale
        unfold getNumber16; omega
      · show getNumber16 r.itemtype = r.itemtype
        unfold getNumber16; omega
      · show getNumber16 r.amount = r.amount
        unfold getNumber16; omega
      · show getNumber32 r.price = r.price
        unfold getNumber32; omega
      · intro h0 h1
        show ((toUInt32 ((getNumber32 r.created : Int) + env.marketOfferDuration) : Nat) : Int) = _
        rw [e]; omega
  · intro offerId h
    unfold moveOfferToHistory
    rw [find_id_none _ _ h]

/-- Witness for C2: the buy offer 2 of the example state is archived, and the
unused id 3 is refused. -/
theorem moveOfferToHistory_archives_witness :
    exampleOffer ∈ exampleState.market_offers ∧
      (exampleState.market_offers.map (fun x => x.id)).Nodup ∧ exampleOffer.typed ∧
      (∀ x ∈ exampleState.market_offers, x.id ≠ 3) ∧
      (moveOfferToHistory exampleEnv exampleOffer.id .OFFERSTATE_EXPIRED exampleState).2 = true ∧
      moveOfferToHistory exampleEnv 3 .OFFERSTATE_EXPIRED exampleState = (exampleState, false) := by
  refine ⟨by decide, by decide, by decide, by decide, ?_, ?_⟩
  · obtain ⟨h, e, _⟩ :=
      (moveOfferToHistory_archives exampleEnv exampleState .OFFERSTATE_EXPIRED).1
        exampleOffer (by decide) (by decide) (by decide)
    rw [e]
  · exact (moveOfferToHistory_archives exampleEnv exampleState .OFFERSTATE_EXPIRED).2 3
      (by decide)

/-- Counterexample to C2 as stated: for the offer created at timestamp 2^32 - 1
with a duration of one second, the history row appended by `moveOfferToHistory`
does not have `expires_at = created + duration`; the 32-bit sum has wrapped to 0. -/
theorem moveOfferToHistory_expiry_wraps :
    ¬ ∃ h : HistoryRow,
        (moveOfferToHistory wrapEnv 1 .OFFERSTATE_EXPIRED wrapState).1.market_history
          = wrapState.market_history ++ [h] ∧
        (h.expires_at : Int) = 4294967295 + wrapEnv.marketOfferDuration := by
  rintro ⟨h, h1, h2⟩
  have e : (moveOfferToHistory wrapEnv 1 .OFFERSTATE_EXPIRED wrapState).1.market_history
      = [⟨7, 1, 10, 5, 3, 0, 1700000000, .OFFERSTATE_EXPIRED⟩] := by decide
  rw [e] at h1
  simp [wrapState] at h1
  subst h1
  revert h2
  decide

/-! ## C8: a sell offer for an undefined item -/

theorem find_id_filter_ne (offers : List OfferRow) (x y : Nat) (h : y ≠ x) :
    (offers.filter (fun r => decide (r.id ≠ x))).find? (fun r => decide (r.id = y))
      = offers.find? (fun r => decide (r.id = y)) := by
  induction offers with
  | nil => rfl
  | cons a l ih =>
    by_cases hx : a.id = x
    · have hy : a.id ≠ y := fun e => h (e.symm.trans hx)
      rw [List.filter_cons_of_neg (by simp [hx]), List.find?_cons_of_neg _ (by simp [hy])]
      exact ih
    · rw [List.filter_cons_of_pos (by simp [hx])]
      by_cases hy : a.id = y
      · rw [List.find?_cons_of_pos _ (by simp [hy]), List.find?_cons_of_pos _ (by simp [hy])]
      · rw [List.find?_cons_of_neg _ (by simp [hy]), List.find?_cons_of_neg _ (by simp [hy])]
        exact ih

theorem filter_id_comm (offers : List OfferRow) (x y : Nat) :
    (offers.filter (fun r => decide (r.id ≠ x))).filter (fun r => decide (r.id ≠ y))
      = (offers.filter (fun r => decide (r.id ≠ y))).filter (fun r => decide (r.id ≠ x)) := by
  simp only [List.filter_filter]
  apply List.filter_congr
  intro a _
  exact Bool.and_comm _ _

/-- Settling a row with another id commutes with the offer of id `x` having been
archived: players agree, the active tables differ by the rows of id `x`, and both
histories grow by the same rows. -/
theorem settleRow_archived_invariant (env : Env) (row : ExpiredRow) (x : Nat) (a b : State)
    (hid : getNumber32 row.id ≠ x)
    (h1 : a.onlinePlayers = b.onlinePlayers) (h2 : a.storedPlayers = b.storedPlayers)
    (h3 : a.market_offers = b.market_offers.filter (fun r => decide (r.id ≠ x))) :
    (settleRow env row a).onlinePlayers = (settleRow env row b).onlinePlayers ∧
      (settleRow env row a).storedPlayers = (settleRow env row b).storedPlayers ∧
      (settleRow env row a).market_offers
        = (settleRow env row b).market_offers.filter (fun r => decide (r.id ≠ x)) ∧
      ∃ t, (settleRow env row a).market_history = a.market_history ++ t ∧
        (settleRow env row b).market_history = b.market_history ++ t := by
  have hfind : a.market_offers.find? (fun r => decide (r.id = getNumber32 row.id))
      = b.market_offers.find? (fun r => decide (r.id = getNumber32 row.id)) := by
    rw [h3]; exact find_id_filter_ne _ _ _ hid
  refine ⟨?_, ?_, ?_, ?_⟩
  · unfold settleRow moveOfferToHistory
    rw [hfind]
    cases b.market_offers.find? (fun r => decide (r.id = getNumber32 row.id)) with
    | none => exact h1
    | some r => exact (refundOwner_players env row _ _ (by exact h1) (by exact h2)).1
  · unfold settleRow moveOfferToHistory
    rw [hfind]
    cases b.market_offers.find? (fun r => decide (r.id = getNumber32 row.id)) with
    | none => exact h2
    | some r => exact (refundOwner_players env row _ _ (by exact h1) (by exact h2)).2
  · rw [settleRow_market_offers, settleRow_market_offers, h3]
    exact filter_id_comm _ _ _
  · rw [settleRow_market_history, settleRow_market_history]
    unfold moveOfferToHistory
    rw [hfind]
    cases b.market_offers.find? (fun r => decide (r.id = getNumber32 row.id)) with
    | none => exact ⟨[], by simp, by simp⟩
    | some r => exact ⟨_, rfl, rfl⟩

theorem processExpiredOffers_archived_invariant (env : Env) (x : Nat) (post : List ExpiredRow) :
    ∀ a b : State, (∀ r ∈ post, getNumber32 r.id ≠ x) →
      a.onlinePlayers = b.onlinePlayers → a.storedPlayers = b.storedPlayers →
      a.market_offers = b.market_offers.filter (fun r => decide (r.id ≠ x)) →
      (processExpiredOffers env post a).onlinePlayers
          = (processExpiredOffers env post b).onlinePlayers ∧
        (processExpiredOffers env post a).storedPlayers
          = (processExpiredOffers env post b).storedPlayers ∧
        (processExpiredOffers env post a).market_offers
          = (processExpiredOffers env post b).market_offers.filter
              (fun r => decide (r.id ≠ x)) ∧
        ∃ t, (processExpiredOffers env post a).market_history = a.market_history ++ t ∧
          (processExpiredOffers env post b).market_history = b.market_history ++ t := by
  induction post with
  | nil =>
    intro a b _ h1 h2 h3
    exact ⟨h1, h2, h3, [], by simp [processExpiredOffers], by simp [processExpiredOffers]⟩
  | cons row l ih =>
    intro a b hpost h1 h2 h3
    obtain ⟨k1, k2, k3, t, k4, k5⟩ :=
      settleRow_archived_invariant env row x a b (hpost row (List.mem_cons_self _ _)) h1 h2 h3
    obtain ⟨m1, m2, m3, u, m4, m5⟩ :=
      ih (settleRow env row a) (settleRow env row b)
        (fun r hr => hpost r (List.mem_cons_of_mem _ hr)) k1 k2 k3
    rw [processExpiredOffers_cons, processExpiredOffers_cons]
    refine ⟨m1, m2, m3, t ++ u, ?_, ?_⟩
    · rw [m4, k4, List.append_assoc]
    · rw [m5, k5, List.append_assoc]

/-- The effect of the loop body on a sell row whose item id is undefined. -/
theorem settleRow_undefined_item (env : Env) (row : ExpiredRow) (s : State)
    (hsale : row.sale = MARKETACTION_SELL)
    (hitem : (env.items (getNumber16 row.itemtype)).id = 0) :
    settleRow env row s
      = (moveOfferToHistory env (getNumber32 row.id) .OFFERSTATE_EXPIRED s).1 := by
  unfold settleRow
  cases hm : moveOfferToHistory env (getNumber32 row.id) .OFFERSTATE_EXPIRED s with
  | mk s1 b =>
    cases b with
    | false => rfl
    | true =>
      have h16 : getNumber16 row.sale = 1 := by
        rw [hsale]; rfl
      simp [refundOwner, h16, hitem]

theorem moveOfferToHistory_players (env : Env) (offerId : Nat) (state : MarketOfferState_t)
    (s : State) :
    (moveOfferToHistory env offerId state s).1.onlinePlayers = s.onlinePlayers ∧
      (moveOfferToHistory env offerId state s).1.storedPlayers = s.storedPlayers := by
  unfold moveOfferToHistory
  cases s.market_offers.find? (fun r => decide (r.id = offerId)) with
  | none => exact ⟨rfl, rfl⟩
  | some r => exact ⟨rfl, rfl⟩

theorem moveOfferToHistory_history_of_present (env : Env) (offerId : Nat)
    (state : MarketOfferState_t) (s : State) (h : ∃ r ∈ s.market_offers, r.id = offerId) :
    ∃ row : HistoryRow, (moveOfferToHistory env offerId state s).1.market_history
        = s.market_history ++ [row] ∧ row.state = state := by
  unfold moveOfferToHistory
  cases hf : s.market_offers.find? (fun r => decide (r.id = offerId)) with
  | none =>
    obtain ⟨r, hr, e⟩ := h
    have := List.find?_eq_none.1 hf r hr
    simp [e] at this
  | some r => exact ⟨_, rfl, rfl⟩

/-- Claim C8.  Let a batch consist of the rows `pre`, then a sell row whose item id
has no definition, then the rows `post`, none of which has the id of that row
(ids are unique in a result set).  With `s0` the state in which the row is reached
and `s1` the state after it: the offer is gone from the active table, one EXPIRED
history row has been appended if the offer was still active, and no player,
inbox or balance has changed.  The later rows are settled as in the batch without
the row: the final players are equal, the final active tables differ only by the
offer of that row, and the history rows appended after the row are the same. -/
theorem processExpiredOffers_undefined_item (env : Env) (pre post : List ExpiredRow)
    (row : ExpiredRow) (s : State)
    (hsale : row.sale = MARKETACTION_SELL)
    (hitem : (env.items (getNumber16 row.itemtype)).id = 0)
    (hpost : ∀ r ∈ post, getNumber32 r.id ≠ getNumber32 row.id) :
    (settleRow env row (processExpiredOffers env pre s)).market_offers
        = (processExpiredOffers env pre s).market_offers.filter
            (fun r => decide (r.id ≠ getNumber32 row.id)) ∧
      (∀ r ∈ (settleRow env row (processExpiredOffers env pre s)).market_offers,
        r.id ≠ getNumber32 row.id) ∧
      ((∃ r ∈ (processExpiredOffers env pre s).market_offers, r.id = getNumber32 row.id) →
        ∃ h : HistoryRow,
          (settleRow env row (processExpiredOffers env pre s)).market_history
            = (processExpiredOffers env pre s).market_history ++ [h] ∧
          h.state = .OFFERSTATE_EXPIRED) ∧
      (settleRow env row (processExpiredOffers env pre s)).onlinePlayers
        = (processExpiredOffers env pre s).onlinePlayers ∧
      (settleRow env row (processExpiredOffers env pre s)).storedPlayers
        = (processExpiredOffers env pre s).storedPlayers ∧
      (processExpiredOffers env (pre ++ row :: post) s).onlinePlayers
        = (processExpiredOffers env (pre ++ post) s).onlinePlayers ∧
      (processExpiredOffers env (pre ++ row :: post) s).storedPlayers
        = (processExpiredOffers env (pre ++ post) s).storedPlayers ∧
      (processExpiredOffers env (pre ++ row :: post) s).market_offers
        = (processExpiredOffers env (pre ++ post) s).market_offers.filter
            (fun r => decide (r.id ≠ getNumber32 row.id)) ∧
      (processExpiredOffers env (pre ++ row :: post) s).market_history.drop
          (settleRow env row (processExpiredOffers env pre s)).market_history.length
        = (processExpiredOffers env (pre ++ post) s).market_history.drop
            (processExpiredOffers env pre s).market_history.length := by
  have hundef := settleRow_undefined_item env row (processExpiredOffers env pre s) hsale hitem
  have hpl := moveOfferToHistory_players env (getNumber32 row.id) .OFFERSTATE_EXPIRED
    (processExpiredOffers env pre s)
  have hoff := settleRow_market_offers env row (processExpiredOffers env pre s)
  obtain ⟨m1, m2, m3, t, m4, m5⟩ :=
    processExpiredOffers_archived_invariant env (getNumber32 row.id) post
      (settleRow env row (processExpiredOffers env pre s)) (processExpiredOffers env pre s)
      hpost (by rw [hundef]; exact hpl.1) (by rw [hundef]; exact hpl.2) hoff
  refine ⟨hoff, ?_, ?_, ?_, ?_, ?_, ?_, ?_, ?_⟩
  · intro r hr
    rw [hoff] at hr
    simpa using (List.mem_filter.1 hr).2
  · intro hex
    rw [hundef]
    exact moveOfferToHistory_history_of_present env _ _ _ hex
  · rw [hundef]; exact hpl.1
  · rw [hundef]; exact hpl.2
  · rw [processExpiredOffers_append, processExpiredOffers_append, processExpiredOffers_cons]
    exact m1
  · rw [processExpiredOffers_append, processExpiredOffers_append, processExpiredOffers_cons]
    exact m2
  · rw [processExpiredOffers_append, processExpiredOffers_append, processExpiredOffers_cons]
    exact m3
  · rw [processExpiredOffers_append, processExpiredOffers_append, processExpiredOffers_cons,
      m4, m5, List.drop_left, List.drop_left]

/-- Witness for C8: the sell offer for the undefined item 99 followed by a buy
row; the connected players end as in the batch without the sell row. -/
theorem processExpiredOffers_undefined_item_witness :
    undefinedItemRow.sale = MARKETACTION_SELL ∧
      (exampleEnv.items (getNumber16 undefinedItemRow.itemtype)).id = 0 ∧
      (∀ r ∈ [exampleBuyRow], getNumber32 r.id ≠ getNumber32 undefinedItemRow.id) ∧
      (processExpiredOffers exampleEnv ([] ++ undefinedItemRow :: [exampleBuyRow])
          undefinedItemState).onlinePlayers
        = (processExpiredOffers exampleEnv ([] ++ [exampleBuyRow])
            undefinedItemState).onlinePlayers :=
  ⟨by decide, by decide, by decide,
    (processExpiredOffers_undefined_item exampleEnv [] [exampleBuyRow] undefinedItemRow
      undefinedItemState (by decide) (by decide) (by decide)).2.2.2.2.2.1⟩

/-! ## C3: the refund of a buy offer -/

theorem find_guid_map (l : List Player) (g : Nat) (f : Player → Player)
    (hf : ∀ q, q.guid = g → (f q).guid = g) :
    (l.map (fun q => if q.guid = g then f q else q)).find? (fun p => decide (p.guid = g))
      = (l.find? (fun p => decide (p.guid = g))).map f := by
  induction l with
  | nil => rfl
  | cons a l ih =>
    by_cases ha : a.guid = g
    · rw [List.map_cons, if_pos ha, List.find?_cons_of_pos _ (by simp [hf a ha]),
        List.find?_cons_of_pos _ (by simp [ha])]
      rfl
    · rw [List.map_cons, if_neg ha, List.find?_cons_of_neg _ (by simp [ha]),
        List.find?_cons_of_neg _ (by simp [ha])]
      exact ih

theorem settleRow_of_present (env : Env) (row : ExpiredRow) (s : State)
    (h : ∃ r ∈ s.market_offers, r.id = getNumber32 row.id) :
    ∃ s1 : State, settleRow env row s = refundOwner env row s1 ∧
      s1.onlinePlayers = s.onlinePlayers ∧ s1.storedPlayers = s.storedPlayers := by
  unfold settleRow moveOfferToHistory
  cases hf : s.market_offers.find? (fun r => decide (r.id = getNumber32 row.id)) with
  | none =>
    obtain ⟨r, hr, e⟩ := h
    have := List.find?_eq_none.1 hf r hr
    simp [e] at this
  | some r => exact ⟨_, rfl, rfl, rfl⟩

/-- Claim C3, amended.  For a buy row of the result set whose columns fit their
types (32-bit price, 16-bit amount) and whose offer is still in the active table,
the product `price * amount` is formed without wrapping (it is below 2^64).  If
the owner is connected, the live balance becomes `(balance + price * amount)`
reduced modulo 2^64 (the sum is a 64-bit unsigned sum), which is
`balance + price * amount` whenever that is below 2^64, and the stored players
are untouched.  If the owner is not connected, the connected players are
untouched and the stored balance of the owner grows by exactly `price * amount`. -/
theorem processExpiredOffers_buy_refund (env : Env) (row : ExpiredRow) (s : State)
    (ht : row.typed) (hbuy : row.sale = MARKETACTION_BUY)
    (hpresent : ∃ r ∈ s.market_offers, r.id = row.id) :
    getNumber64 row.price * getNumber16 row.amount = row.price * row.amount ∧
      row.price * row.amount < 18446744073709551616 ∧
      (∀ p, getPlayerByGUID s row.player_id = some p →
        (getPlayerByGUID (processExpiredOffers env [row] s) row.player_id).map
            (fun q => q.bankBalance)
          = some ((p.bankBalance + row.price * row.amount) % 18446744073709551616) ∧
        (p.bankBalance + row.price * row.amount < 18446744073709551616 →
          (getPlayerByGUID (processExpiredOffers env [row] s) row.player_id).map
              (fun q => q.bankBalance)
            = some (p.bankBalance + row.price * row.amount)) ∧
        (processExpiredOffers env [row] s).storedPlayers = s.storedPlayers) ∧
      (getPlayerByGUID s row.player_id = none →
        (processExpiredOffers env [row] s).onlinePlayers = s.onlinePlayers ∧
        ∀ q, loadPlayerById s row.player_id = some q →
          (loadPlayerById (processExpiredOffers env [row] s) row.player_id).map
              (fun q => q.bankBalance)
            = some (q.bankBalance + row.price * row.amount)) := by
  obtain ⟨t1, t2, t3, t4, t5, t6⟩ := ht
  have eid : getNumber32 row.id = row.id := by unfold getNumber32; omega
  have epl : getNumber32 row.player_id = row.player_id := by unfold getNumber32; omega
  have eam : getNumber16 row.amount = row.amount := by unfold getNumber16; omega
  have epr : getNumber64 row.price = row.price := by unfold getNumber64; omega
  have esale : ¬ getNumber16 row.sale = 1 := by rw [hbuy]; decide
  have hprod : row.price * row.amount < 18446744073709551616 := by
    have h1 : row.price * row.amount ≤ 4294967295 * 65535 :=
      Nat.mul_le_mul (by omega) (by omega)
    omega
  have hmod : (row.price * row.amount) % 18446744073709551616 = row.price * row.amount :=
    Nat.mod_eq_of_lt hprod
  obtain ⟨s1, hs, ho, hst⟩ := settleRow_of_present env row s (by rw [eid]; exact hpresent)
  have hrun : processExpiredOffers env [row] s = refundOwner env row s1 := by
    simp [processExpiredOffers, hs]
  refine ⟨by rw [epr, eam], hprod, ?_, ?_⟩
  · intro p hp
    have hp1 : s1.onlinePlayers.find? (fun q => decide (q.guid = row.player_id)) = some p := by
      rw [ho]; exact hp
    have hg : p.guid = row.player_id := by
      have := List.find?_some hp1
      simpa using this
    have hres : refundOwner env row s1 = updateLivePlayer s1
        { p with bankBalance := (p.bankBalance + row.price * row.amount) % 18446744073709551616 } := by
      simp [refundOwner, esale, getPlayerByGUID, epl, eam, epr, hp1, hmod]
    have hbal : (getPlayerByGUID (processExpiredOffers env [row] s) row.player_id).map
          (fun q => q.bankBalance)
        = some ((p.bankBalance + row.price * row.amount) % 18446744073709551616) := by
      rw [hrun, hres]
      unfold getPlayerByGUID updateLivePlayer
      simp only [hg]
      rw [find_guid_map s1.onlinePlayers row.player_id
        (fun _ => { guid := row.player_id, name := p.name,
                    bankBalance := (p.bankBalance + row.price * row.amount)
                      % 18446744073709551616,
                    inbox := p.inbox, inboxRoom := p.inboxRoom,
                    inboxRejected := p.inboxRejected })
        (fun _ _ => rfl), hp1]
      rfl
    refine ⟨hbal, ?_, ?_⟩
    · intro hlt
      rw [hbal, Nat.mod_eq_of_lt hlt]
    · rw [hrun, hres]
      exact hst
  · intro hnone
    have hn1 : s1.onlinePlayers.find? (fun q => decide (q.guid = row.player_id)) = none := by
      rw [ho]; exact hnone
    have hres : refundOwner env row s1
        = increaseBankBalance s1 row.player_id (row.price * row.amount) := by
      simp [refundOwner, esale, getPlayerByGUID, epl, eam, epr, hn1, hmod]
    refine ⟨?_, ?_⟩
    · rw [hrun, hres]; exact ho
    · intro q hq
      rw [hrun, hres]
      unfold loadPlayerById increaseBankBalance
      simp only [hst]
      rw [find_guid_map _ _ (fun q => { q with bankBalance := q.bankBalance + row.price * row.amount })
        (fun _ h => h)]
      unfold loadPlayerById at hq
      rw [hq]
      rfl

/-- Witness for C3: the buy offer 2 of the example state, whose owner 8 is
connected with balance 1000, is refunded 4 * 25. -/
theorem processExpiredOffers_buy_refund_witness :
    exampleBuyRow.typed ∧ exampleBuyRow.sale = MARKETACTION_BUY ∧
      (∃ r ∈ exampleState.market_offers, r.id = exampleBuyRow.id) ∧
      getPlayerByGUID exampleState exampleBuyRow.player_id
        = some ⟨8, "eight", 1000, [], 5, 0⟩ ∧
      (getPlayerByGUID (processExpiredOffers exampleEnv [exampleBuyRow] exampleState)
          exampleBuyRow.player_id).map (fun q => q.bankBalance)
        = some ((1000 + 25 * 4) % 18446744073709551616) :=
  ⟨by decide, by decide, by decide, by decide,
    ((processExpiredOffers_buy_refund exampleEnv exampleBuyRow exampleState (by decide)
      (by decide) (by decide)).2.2.1 ⟨8, "eight", 1000, [], 5, 0⟩ (by decide)).1⟩

/-- Counterexample to C3 as stated: the connected owner holds 2^64 - 1 and the
expired buy offer is worth 1 * 1; after settlement the balance is 0, not the
balance before plus `price * amount`. -/
theorem processExpiredOffers_balance_wraps :
    ∃ before after : Nat,
      (getPlayerByGUID fullBalanceState fullBalanceRow.player_id).map (fun q => q.bankBalance)
        = some before ∧
      (getPlayerByGUID (processExpiredOffers exampleEnv [fullBalanceRow] fullBalanceState)
          fullBalanceRow.player_id).map (fun q => q.bankBalance) = some after ∧
      after ≠ before + fullBalanceRow.price * fullBalanceRow.amount :=
  ⟨18446744073709551615, 0, by decide, by decide, by decide⟩

/-! ## C6: delivery of a stackable item -/

/-- The stackable loop in closed form: with `d = min tmpAmount (100 * room)` units
delivered, the inbox receives `d / 100` stacks of 100 and then a stack of
`d % 100` if that is not zero; one insertion is refused exactly when
`100 * room < tmpAmount`. -/
theorem deliverStackable_eq (itemId : Nat) :
    ∀ (fuel tmpAmount : Nat) (player : Player), tmpAmount ≤ fuel → tmpAmount < 65536 →
      deliverStackable itemId fuel tmpAmount player =
        { player with
          inbox := player.inbox
            ++ List.replicate (min tmpAmount (100 * player.inboxRoom) / 100)
                ({ id := itemId, count := 100 } : Item)
            ++ (if min tmpAmount (100 * player.inboxRoom) % 100 = 0 then []
                else [{ id := itemId,
                        count := ((min tmpAmount (100 * player.inboxRoom) % 100 : Nat) : Int) }])
          inboxRoom := player.inboxRoom - (min tmpAmount (100 * player.inboxRoom) + 99) / 100
          inboxRejected := player.inboxRejected
            + (if 100 * player.inboxRoom < tmpAmount then 1 else 0) } := by
  intro fuel
  induction fuel with
  | zero =>
    intro tmpAmount player h _
    have h0 : tmpAmount = 0 := by omega
    subst h0
    cases player
    simp [deliverStackable]
  | succ n ih =>
    intro tmpAmount player h hlt
    rw [deliverStackable]
    by_cases h0 : tmpAmount = 0
    · subst h0
      cases player
      simp
    · have hpos : tmpAmount > 0 := Nat.pos_of_ne_zero h0
      rw [if_pos hpos]
      by_cases hr : player.inboxRoom = 0
      · cases player
        simp only at hr
        subst hr
        simp [internalAddItem, hpos]
      · have hroom : 0 < player.inboxRoom := Nat.pos_of_ne_zero hr
        simp only [internalAddItem, if_neg hr]
        have hsub : (tmpAmount - min 100 tmpAmount) % 65536 = tmpAmount - min 100 tmpAmount := by
          omega
        rw [hsub, ih _ _ (by omega) (by omega)]
        cases player with
        | mk guid name bankBalance inbox inboxRoom inboxRejected =>
          simp only at hroom hr ⊢
          by_cases hle : tmpAmount ≤ 100
          · have e1 : min 100 tmpAmount = tmpAmount := by omega
            have e2 : min tmpAmount (100 * inboxRoom) = tmpAmount := by omega
            have e3 : tmpAmount - tmpAmount = 0 := by omega
            rw [e1, e2, e3]
            by_cases h100 : tmpAmount = 100
            · subst h100
              simp
              omega
            · have e4 : tmpAmount / 100 = 0 := by omega
              have e5 : tmpAmount % 100 = tmpAmount := by omega
              have e6 : (tmpAmount + 99) / 100 = 1 := by omega
              have e7 : ¬ 100 * inboxRoom < tmpAmount := by omega
              simp [e4, e5, e6, e7, h0]
          · have e1 : min 100 tmpAmount = 100 := by omega
            have e2 : min tmpAmount (100 * inboxRoom)
                = min (tmpAmount - 100) (100 * (inboxRoom - 1)) + 100 := by omega
            rw [e1, e2]
            have e3 : (min (tmpAmount - 100) (100 * (inboxRoom - 1)) + 100) / 100
                = min (tmpAmount - 100) (100 * (inboxRoom - 1)) / 100 + 1 := by omega
            have e4 : (min (tmpAmount - 100) (100 * (inboxRoom - 1)) + 100) % 100
                = min (tmpAmount - 100) (100 * (inboxRoom - 1)) % 100 := by omega
            have e5 : inboxRoom - 1 - (min (tmpAmount - 100) (100 * (inboxRoom - 1)) + 99) / 100
                = inboxRoom - (min (tmpAmount - 100) (100 * (inboxRoom - 1)) + 100 + 99) / 100 := by
              omega
            have e6 : (100 * (inboxRoom - 1) < tmpAmount - 100) ↔ (100 * inboxRoom < tmpAmount) := by
              omega
            rw [e3, e4, e5]
            simp only [e6, List.replicate_succ, List.append_assoc, List.singleton_append,
              Nat.cast_ofNat]

/-- Claim C6.  Delivering a 16-bit `amount` of a stackable item to a player whose
inbox accepts `k = inboxRoom` more insertions and refuses the next: the loop ends
within `amount` iterations (any larger iteration bound gives the same result);
the inbox receives `n` stacks of 100 followed, when `c` is not zero, by one stack
of `c < 100` units, so every inserted stack has between 1 and 100 units and only
the last can be smaller than 100; the units delivered are
`100 * n + c = min amount (100 * k)`; at most `k` insertions succeed, and exactly
one insertion is refused when `100 * k < amount` and none otherwise, so nothing is
attempted after a refusal. -/
theorem deliverItems_stackable (itemType : ItemType) (amount : Nat) (player : Player)
    (hstack : itemType.stackable = true) (hamount : amount < 65536) :
    ∃ n c : Nat,
      c < 100 ∧ 100 * n + c = min amount (100 * player.inboxRoom) ∧
      (∀ fuel, amount ≤ fuel →
        deliverStackable itemType.id fuel amount player = deliverItems itemType amount player) ∧
      (deliverItems itemType amount player).inbox
        = player.inbox ++ List.replicate n ({ id := itemType.id, count := 100 } : Item)
            ++ (if c = 0 then [] else [{ id := itemType.id, count := (c : Int) }]) ∧
      n + (if c = 0 then 0 else 1) ≤ player.inboxRoom ∧
      (deliverItems itemType amount player).inboxRoom
        = player.inboxRoom - (n + (if c = 0 then 0 else 1)) ∧
      (deliverItems itemType amount player).inboxRejected
        = player.inboxRejected + (if 100 * player.inboxRoom < amount then 1 else 0) := by
  have hrun : deliverItems itemType amount player
      = deliverStackable itemType.id amount amount player := by
    simp [deliverItems, hstack]
  refine ⟨min amount (100 * player.inboxRoom) / 100,
    min amount (100 * player.inboxRoom) % 100, ?_, ?_, ?_, ?_, ?_, ?_, ?_⟩
  · omega
  · omega
  · intro fuel hfuel
    rw [hrun, deliverStackable_eq itemType.id fuel amount player hfuel hamount,
      deliverStackable_eq itemType.id amount amount player (Nat.le_refl _) hamount]
  · rw [hrun, deliverStackable_eq itemType.id amount amount player (Nat.le_refl _) hamount]
  · split_ifs <;> omega
  · rw [hrun, deliverStackable_eq itemType.id amount amount player (Nat.le_refl _) hamount]
    simp only
    split_ifs <;> omega
  · rw [hrun, deliverStackable_eq itemType.id amount amount player (Nat.le_refl _) hamount]

/-- Witness for C6: 250 units into an inbox with room for two stacks; two stacks
of 100 arrive, 50 units stay undelivered and one insertion is refused. -/
theorem deliverItems_stackable_witness :
    exampleStackable.stackable = true ∧ 250 < 65536 ∧
      (∃ n c : Nat, c < 100 ∧ 100 * n + c = min 250 (100 * examplePlayer.inboxRoom) ∧
        (deliverItems exampleStackable 250 examplePlayer).inbox
          = examplePlayer.inbox
              ++ List.replicate n ({ id := exampleStackable.id, count := 100 } : Item)
              ++ (if c = 0 then [] else [{ id := exampleStackable.id, count := (c : Int) }])) ∧
      (deliverItems exampleStackable 250 examplePlayer).inbox = [⟨10, 100⟩, ⟨10, 100⟩] ∧
      (deliverItems exampleStackable 250 examplePlayer).inboxRejected = 1 := by
  obtain ⟨n, c, h1, h2, _, h4, _, _, _⟩ :=
    deliverItems_stackable exampleStackable 250 examplePlayer (by decide) (by decide)
  exact ⟨by decide, by decide, ⟨n, c, h1, h2, h4⟩, by decide, by decide⟩

/-! ## C7: offer handles -/

theorem toInt32_round_trip (created : Nat) (duration : Int) (h : created < 2147483648) :
    toInt32 (((toUInt32 ((created : Int) + duration) : Nat) : Int) - duration) = (created : Int) := by
  rw [toUInt32_eq]
  unfold toInt32
  omega

/-- Where the handle lookup does invert the handle.  In an active table in which
no two rows share both `created` and `id mod 65536`, take a row `r` whose columns
fit their types and whose `created` is below 2^31.  The pair (timestamp, counter)
that `getActiveOffers` and `getOwnOffers` report for `r` is
`((created + duration) mod 2^32, id mod 65536)`, and `getOfferByCounter` on that
pair returns the offer with the id and the player id of `r`.  When no row matches
the reconstructed `created` and the counter, the result has id 0 and player id 0.
For rows created at 2^31 or later the lookup fails, see
`getOfferByCounter_late_created`. -/
theorem getOfferByCounter_round_trip (env : Env) (s : State) :
    (∀ r ∈ s.market_offers,
      (∀ a ∈ s.market_offers, ∀ b ∈ s.market_offers,
        a.created = b.created → a.id % 65536 = b.id % 65536 → a = b) →
      r.typed → r.created < 2147483648 →
      (∃ o ∈ getActiveOffers env r.sale r.itemtype s,
        o.timestamp = toUInt32 ((r.created : Int) + env.marketOfferDuration) ∧
        o.counter = r.id % 65536) ∧
      (∃ o ∈ getOwnOffers env r.sale r.player_id s,
        o.timestamp = toUInt32 ((r.created : Int) + env.marketOfferDuration) ∧
        o.counter = r.id % 65536) ∧
      (getOfferByCounter env (toUInt32 ((r.created : Int) + env.marketOfferDuration))
          (r.id % 65536) s).id = r.id ∧
      (getOfferByCounter env (toUInt32 ((r.created : Int) + env.marketOfferDuration))
          (r.id % 65536) s).playerId = r.player_id) ∧
    (∀ timestamp counter : Nat,
      (∀ x ∈ s.market_offers,
        ¬ ((x.created : Int) = toInt32 ((timestamp : Int) - env.marketOfferDuration) ∧
            x.id % 65536 = counter)) →
      (getOfferByCounter env timestamp counter s).id = 0 ∧
      (getOfferByCounter env timestamp counter s).playerId = 0) := by
  constructor
  · intro r hr huniq ht hlate
    obtain ⟨t1, t2, _, _, _, _, t7⟩ := ht
    have e32 : getNumber32 r.created = r.created := by unfold getNumber32; omega
    have eid : getNumber32 r.id = r.id := by unfold getNumber32; omega
    have epl : getNumber32 r.player_id = r.player_id := by unfold getNumber32; omega
    refine ⟨?_, ?_, ?_⟩
    · refine ⟨_, List.mem_map.2 ⟨r, List.mem_filter.2 ⟨hr, by simp⟩, rfl⟩, ?_, ?_⟩
      · simp only [e32]
      · simp only [eid]
    · refine ⟨_, List.mem_map.2 ⟨r, List.mem_filter.2 ⟨hr, by simp⟩, rfl⟩, ?_, ?_⟩
      · simp only [e32]
      · simp only [eid]
    · unfold getOfferByCounter
      simp only [toInt32_round_trip r.created env.marketOfferDuration hlate]
      cases hf : s.market_offers.find?
          (fun x => decide ((x.created : Int) = (r.created : Int) ∧ x.id % 65536 = r.id % 65536)) with
      | none =>
        have := List.find?_eq_none.1 hf r hr
        simp at this
      | some x =>
        have hx : x ∈ s.market_offers := List.mem_of_find?_eq_some hf
        have hp := List.find?_some hf
        simp only [decide_eq_true_eq] at hp
        have hxr : x = r := huniq x hx r hr (by exact_mod_cast hp.1) hp.2
        subst hxr
        exact ⟨eid, epl⟩
  · intro timestamp counter hnone
    unfold getOfferByCounter
    have : s.market_offers.find?
        (fun x => decide ((x.created : Int) = toInt32 ((timestamp : Int) - env.marketOfferDuration)
          ∧ x.id % 65536 = counter)) = none := by
      rw [List.find?_eq_none]
      intro x hx
      simpa using hnone x hx
    simp only [this]
    trivial

/-- The offers 65536 and 131072 of the example state, created at different
timestamps below 2^31, both have counter 0; each resolves to itself, and a handle
that matches no row resolves to id 0. -/
theorem getOfferByCounter_round_trip_witness :
    exampleHandleOffer ∈ exampleState.market_offers ∧
      (∀ a ∈ exampleState.market_offers, ∀ b ∈ exampleState.market_offers,
        a.created = b.created → a.id % 65536 = b.id % 65536 → a = b) ∧
      exampleHandleOffer.typed ∧ exampleHandleOffer.created < 2147483648 ∧
      (getOfferByCounter exampleEnv
          (toUInt32 ((exampleHandleOffer.created : Int) + exampleEnv.marketOfferDuration))
          (exampleHandleOffer.id % 65536) exampleState).id = exampleHandleOffer.id ∧
      (getOfferByCounter exampleEnv 2592100 0 exampleState).id = 65536 ∧
      (getOfferByCounter exampleEnv 2592200 0 exampleState).id = 131072 ∧
      (getOfferByCounter exampleEnv 2592300 0 exampleState).id = 0 :=
  ⟨by decide, by decide, by decide, by decide,
    ((getOfferByCounter_round_trip exampleEnv exampleState).1 exampleHandleOffer
      (by decide) (by decide) (by decide) (by decide)).2.2.1,
    by decide, by decide, by decide⟩

/-- Claim C7, evaluated at the failing input.  The claim says that
`getOfferByCounter` on the (timestamp, counter) pair reported for a row returns
that row.  The only offer of `lateState` has id 1 and was created at timestamp
2^31, a value of the `uint32_t` type in which `getActiveOffers`, `getOwnOffers` and
`getOfferByCounter` itself read `created`.  `getActiveOffers` reports the handle
(2^31 + duration, 1) for it, and `getOfferByCounter` on that handle finds nothing
and returns id 0 instead of id 1: it keeps the reconstructed `created` in an
`int32_t`, where 2^31 becomes -2^31, and no row has that `created`. -/
theorem getOfferByCounter_late_created :
    (getActiveOffers exampleEnv 1 10 lateState).map (fun o => (o.timestamp, o.counter))
        = [(2147483648 + 2592000, 1 % 65536)] ∧
      (getOfferByCounter exampleEnv (2147483648 + 2592000) (1 % 65536) lateState).id ≠ 1 ∧
      (getOfferByCounter exampleEnv (2147483648 + 2592000) (1 % 65536) lateState).id = 0 :=
  ⟨by decide, by decide, by decide⟩

/-! ## C9: the sweeper -/

/-- Claim C9, amended.  Every call of `checkExpiredOffers` hands exactly one task to
the database task queue: the query for the active offers with
`created <= now - duration`, with `processExpiredOffers` as completion callback and
the store flag set.  If the configured interval is at most 0, nothing is handed
to the scheduler.  If the interval lies in 1 .. 35791 minutes, exactly one further
`checkExpiredOffers` is scheduled, with delay `interval * 60 * 1000` ms; 35791 is
the largest interval whose delay fits the `int32_t` product the code computes. -/
theorem checkExpiredOffers_dispatch (env : Env) (d : Dispatch) :
    (checkExpiredOffers env d).databaseTasks
        = d.databaseTasks ++
          [{ lastExpireDate := (env.now : Int) - env.marketOfferDuration,
             callback := .processExpiredOffers, store := true }] ∧
      (∀ (offers : List OfferRow) (row : ExpiredRow),
        row ∈ expiredOffersQuery ((env.now : Int) - env.marketOfferDuration) offers ↔
          ∃ r ∈ offers, (r.created : Int) ≤ (env.now : Int) - env.marketOfferDuration ∧
            row = { id := r.id, amount := r.amount, price := r.price, itemtype := r.itemtype,
                    player_id := r.player_id, sale := r.sale }) ∧
      (env.checkExpiredMarketOffersEachMinutes ≤ 0 →
        (checkExpiredOffers env d).schedulerEvents = d.schedulerEvents) ∧
      (0 < env.checkExpiredMarketOffersEachMinutes →
        env.checkExpiredMarketOffersEachMinutes ≤ 35791 →
        (checkExpiredOffers env d).schedulerEvents
          = d.schedulerEvents ++
            [{ delay := env.checkExpiredMarketOffersEachMinutes * 60 * 1000,
               callback := .checkExpiredOffers }]) := by
  refine ⟨?_, ?_, ?_, ?_⟩
  · unfold checkExpiredOffers
    simp only
    split_ifs <;> rfl
  · intro offers row
    unfold expiredOffersQuery
    simp only [List.mem_map, List.mem_filter, decide_eq_true_eq]
    constructor
    · rintro ⟨r, ⟨hr, hc⟩, e⟩
      exact ⟨r, hr, hc, e.symm⟩
    · rintro ⟨r, hr, hc, e⟩
      exact ⟨r, ⟨hr, hc⟩, e.symm⟩
  · intro h
    unfold checkExpiredOffers
    simp only [if_pos h]
  · intro h0 h1
    unfold checkExpiredOffers
    have hn : ¬ env.checkExpiredMarketOffersEachMinutes ≤ 0 := by omega
    have e : toInt32 (toInt32 (env.checkExpiredMarketOffersEachMinutes * 60) * 1000)
        = env.checkExpiredMarketOffersEachMinutes * 60 * 1000 := by
      unfold toInt32
      omega
    simp only [if_neg hn, e]

/-- Witness for C9: with an interval of 60 minutes one sweep is scheduled after
3600000 ms; with an interval of 0 the query is dispatched and nothing is
scheduled. -/
theorem checkExpiredOffers_dispatch_witness :
    (0 : Int) < exampleEnv.checkExpiredMarketOffersEachMinutes ∧
      exampleEnv.checkExpiredMarketOffersEachMinutes ≤ 35791 ∧
      zeroIntervalEnv.checkExpiredMarketOffersEachMinutes ≤ 0 ∧
      (checkExpiredOffers exampleEnv emptyDispatch).schedulerEvents
        = emptyDispatch.schedulerEvents ++
          [{ delay := exampleEnv.checkExpiredMarketOffersEachMinutes * 60 * 1000,
             callback := .checkExpiredOffers }] ∧
      (checkExpiredOffers zeroIntervalEnv emptyDispatch).schedulerEvents
        = emptyDispatch.schedulerEvents ∧
      checkExpiredOffers zeroIntervalEnv emptyDispatch
        = { databaseTasks := [⟨1700000000 - 2592000, .processExpiredOffers, true⟩],
            schedulerEvents := [] } :=
  ⟨by decide, by decide, by decide,
    (checkExpiredOffers_dispatch exampleEnv emptyDispatch).2.2.2 (by decide) (by decide),
    (checkExpiredOffers_dispatch zeroIntervalEnv emptyDispatch).2.2.1 (by decide),
    by decide⟩

/-- Counterexample to C9 as stated: with an interval of 71583 minutes the scheduled
delay is not `71583 * 60 * 1000` ms; that product exceeds 32 bits and the
`int32_t` product of the code comes out as 12704. -/
theorem checkExpiredOffers_delay_wraps :
    (0 : Int) < longIntervalEnv.checkExpiredMarketOffersEachMinutes ∧
      (checkExpiredOffers longIntervalEnv emptyDispatch).schedulerEvents
        ≠ [{ delay := 71583 * 60 * 1000, callback := .checkExpiredOffers }] ∧
      (checkExpiredOffers longIntervalEnv emptyDispatch).schedulerEvents
        = [{ delay := 12704, callback := .checkExpiredOffers }] :=
  ⟨by decide, by decide, by decide⟩

/-! ## C10: refund and archived record -/

/-- Evaluation for C10.  The expiration query reads the buy offer 2 with amount 4
and the sell offer 3 with amount 4; before the result set is processed,
`acceptOffer` reduces both offers by 1.  `processExpiredOffers` then archives
both offers with amount 3, but credits `25 * 4 = 100` to the owner of the buy
offer and delivers a stack of 4 units to the owner of the sell offer. -/
theorem processExpiredOffers_stale_amount :
    expiredOffersQuery 150 staleState.market_offers
        = [⟨2, 4, 25, 10, 8, 0⟩, ⟨3, 4, 30, 10, 7, 1⟩] ∧
      (processExpiredOffers exampleEnv (expiredOffersQuery 150 staleState.market_offers)
          (acceptOffer 3 1 (acceptOffer 2 1 staleState))).market_history.map
            (fun h => (h.amount, h.price))
        = [(3, 25), (3, 30)] ∧
      (getPlayerByGUID staleState 8).map (fun q => q.bankBalance) = some 1000 ∧
      (getPlayerByGUID
          (processExpiredOffers exampleEnv (expiredOffersQuery 150 staleState.market_offers)
            (acceptOffer 3 1 (acceptOffer 2 1 staleState))) 8).map (fun q => q.bankBalance)
        = some (1000 + 25 * 4) ∧
      (loadPlayerById
          (processExpiredOffers exampleEnv (expiredOffersQuery 150 staleState.market_offers)
            (acceptOffer 3 1 (acceptOffer 2 1 staleState))) 7).map (fun q => q.inbox)
        = some [⟨10, 4⟩] :=
  ⟨by decide, by decide, by decide, by decide, by decide⟩

/-! ## Statistics -/

theorem updateStatistics_eq_foldl (hist : List HistoryRow) (cached : StatisticsCache) :
    updateStatistics hist cached = (statisticsQuery hist).foldl storeStatistics cached := by
  unfold updateStatistics
  cases statisticsQuery hist with
  | nil => rfl
  | cons row rows => rfl

theorem getStatistics_storeStatistics (cached : StatisticsCache) (row : StatisticsRow)
    (sale itemId : Nat) :
    getStatistics (storeStatistics cached row) sale itemId
      = if ((getNumber16 row.sale = 0 ↔ sale = 0) ∧ getNumber16 row.itemtype = itemId)
        then some (statisticsOfRow row) else getStatistics cached sale itemId := by
  unfold storeStatistics getStatistics getPurchaseStatistics getSaleStatistics mapSet
    statisticsOfRow MARKETACTION_BUY
  by_cases h1 : getNumber16 row.sale = 0 <;> by_cases h2 : sale = 0 <;>
    by_cases h3 : itemId = getNumber16 row.itemtype <;>
    simp [h1, h2, h3, eq_comm]

theorem getStatistics_foldl_unchanged (rows : List StatisticsRow) (sale itemId : Nat) :
    ∀ cached : StatisticsCache,
      (∀ row ∈ rows, ¬ ((getNumber16 row.sale = 0 ↔ sale = 0) ∧
        getNumber16 row.itemtype = itemId)) →
      getStatistics (rows.foldl storeStatistics cached) sale itemId
        = getStatistics cached sale itemId := by
  induction rows with
  | nil => intro cached _; rfl
  | cons r rs ih =>
    intro cached h
    rw [List.foldl_cons, ih _ (fun row hr => h row (List.mem_cons_of_mem _ hr)),
      getStatistics_storeStatistics, if_neg (h r (List.mem_cons_self _ _))]

theorem getStatistics_foldl_stored (rows : List StatisticsRow) (sale itemId : Nat)
    (v : MarketStatistics) :
    ∀ cached : StatisticsCache,
      (∀ row ∈ rows, ((getNumber16 row.sale = 0 ↔ sale = 0) ∧
        getNumber16 row.itemtype = itemId) → statisticsOfRow row = v) →
      (∃ row ∈ rows, (getNumber16 row.sale = 0 ↔ sale = 0) ∧
        getNumber16 row.itemtype = itemId) →
      getStatistics (rows.foldl storeStatistics cached) sale itemId = some v := by
  induction rows with
  | nil =>
    intro cached _ hex
    obtain ⟨row, hr, _⟩ := hex
    simp at hr
  | cons r rs ih =>
    intro cached hall hex
    rw [List.foldl_cons]
    by_cases hrs : ∃ row ∈ rs, (getNumber16 row.sale = 0 ↔ sale = 0) ∧
        getNumber16 row.itemtype = itemId
    · exact ih _ (fun row hr => hall row (List.mem_cons_of_mem _ hr)) hrs
    · have hnone : ∀ row ∈ rs, ¬ ((getNumber16 row.sale = 0 ↔ sale = 0) ∧
          getNumber16 row.itemtype = itemId) := fun row hr hm => hrs ⟨row, hr, hm⟩
      rw [getStatistics_foldl_unchanged rs sale itemId _ hnone, getStatistics_storeStatistics]
      obtain ⟨row, hr, hm⟩ := hex
      rcases List.mem_cons.1 hr with e | e
      · subst e
        rw [if_pos hm, hall row (List.mem_cons_self _ _) hm]
      · exact absurd hm (hnone row e)

/-- The rows of the grouped query: one per pair (itemtype, sale) that some
accepted history row has. -/
theorem mem_statisticsQuery (hist : List HistoryRow) (row : StatisticsRow) :
    row ∈ statisticsQuery hist ↔
      ∃ itemtype sale : Nat, acceptedRows hist itemtype sale ≠ [] ∧
        row = { sale := sale, itemtype := itemtype,
                num := ((acceptedRows hist itemtype sale).map (fun r => r.price)).length,
                min := minPrice ((acceptedRows hist itemtype sale).map (fun r => r.price)),
                max := maxPrice ((acceptedRows hist itemtype sale).map (fun r => r.price)),
                sum := ((acceptedRows hist itemtype sale).map (fun r => r.price)).sum } := by
  unfold statisticsQuery
  simp only [List.mem_map, List.mem_dedup, List.mem_filter, decide_eq_true_eq, Prod.exists,
    Prod.mk.injEq]
  constructor
  · rintro ⟨i, s, ⟨r, ⟨hr, hacc⟩, hi, hs⟩, e⟩
    refine ⟨i, s, ?_, e.symm⟩
    intro hnil
    have : r ∈ acceptedRows hist i s := by
      unfold acceptedRows
      exact List.mem_filter.2 ⟨hr, by simp [hacc, hi, hs]⟩
    rw [hnil] at this
    simp at this
  · rintro ⟨i, s, hne, e⟩
    obtain ⟨r, hr⟩ := List.exists_mem_of_ne_nil _ hne
    unfold acceptedRows at hr
    obtain ⟨hr1, hr2⟩ := List.mem_filter.1 hr
    simp only [decide_eq_true_eq] at hr2
    exact ⟨i, s, ⟨r, ⟨hr1, hr2.1⟩, hr2.2.1, hr2.2.2⟩, e.symm⟩

theorem foldl_min_le (ps : List Nat) : ∀ p : Nat,
    ps.foldl min p ≤ p ∧ (∀ x ∈ ps, ps.foldl min p ≤ x) ∧ (ps.foldl min p = p ∨ ps.foldl min p ∈ ps) := by
  induction ps with
  | nil => intro p; simp
  | cons a l ih =>
    intro p
    obtain ⟨h1, h2, h3⟩ := ih (min p a)
    simp only [List.foldl_cons, List.mem_cons, forall_eq_or_imp]
    refine ⟨by omega, ⟨by omega, h2⟩, ?_⟩
    rcases h3 with h | h
    · rcases Nat.le_total p a with hpa | hpa
      · left; rw [h]; exact Nat.min_eq_left hpa
      · right; left; rw [h]; exact Nat.min_eq_right hpa
    · right; right; exact h

theorem foldl_max_ge (ps : List Nat) : ∀ p : Nat,
    p ≤ ps.foldl max p ∧ (∀ x ∈ ps, x ≤ ps.foldl max p) ∧ (ps.foldl max p = p ∨ ps.foldl max p ∈ ps) := by
  induction ps with
  | nil => intro p; simp
  | cons a l ih =>
    intro p
    obtain ⟨h1, h2, h3⟩ := ih (max p a)
    simp only [List.foldl_cons, List.mem_cons, forall_eq_or_imp]
    refine ⟨by omega, ⟨by omega, h2⟩, ?_⟩
    rcases h3 with h | h
    · rcases Nat.le_total p a with hpa | hpa
      · right; left; rw [h]; exact Nat.max_eq_right hpa
      · left; rw [h]; exact Nat.max_eq_left hpa
    · right; right; exact h

theorem minPrice_spec (ps : List Nat) (h : ps ≠ []) :
    minPrice ps ∈ ps ∧ ∀ x ∈ ps, minPrice ps ≤ x := by
  cases ps with
  | nil => exact absurd rfl h
  | cons p l =>
    obtain ⟨h1, h2, h3⟩ := foldl_min_le l p
    show List.foldl min p l ∈ p :: l ∧ ∀ x ∈ p :: l, List.foldl min p l ≤ x
    refine ⟨?_, ?_⟩
    · rcases h3 with e | e
      · rw [e]; exact List.mem_cons_self _ _
      · exact List.mem_cons_of_mem _ e
    · intro x hx
      rcases List.mem_cons.1 hx with e | e
      · rw [e]; exact h1
      · exact h2 x e

theorem maxPrice_spec (ps : List Nat) (h : ps ≠ []) :
    maxPrice ps ∈ ps ∧ ∀ x ∈ ps, x ≤ maxPrice ps := by
  cases ps with
  | nil => exact absurd rfl h
  | cons p l =>
    obtain ⟨h1, h2, h3⟩ := foldl_max_ge l p
    show List.foldl max p l ∈ p :: l ∧ ∀ x ∈ p :: l, x ≤ List.foldl max p l
    refine ⟨?_, ?_⟩
    · rcases h3 with e | e
      · rw [e]; exact List.mem_cons_self _ _
      · exact List.mem_cons_of_mem _ e
    · intro x hx
      rcases List.mem_cons.1 hx with e | e
      · rw [e]; exact h1
      · exact h2 x e

theorem sum_le_of_bounded (ps : List Nat) (b : Nat) (h : ∀ x ∈ ps, x ≤ b) :
    ps.sum ≤ ps.length * b := by
  induction ps with
  | nil => simp
  | cons a l ih =>
    have ha := h a (List.mem_cons_self _ _)
    have hl := ih (fun x hx => h x (List.mem_cons_of_mem _ hx))
    simp only [List.sum_cons, List.length_cons]
    rw [Nat.add_mul]
    omega

theorem acceptedRows_length_le (hist : List HistoryRow) (itemtype sale : Nat) :
    (acceptedRows hist itemtype sale).length ≤ hist.length := by
  unfold acceptedRows
  exact List.length_filter_le _ _

theorem mem_acceptedRows (hist : List HistoryRow) (itemtype sale : Nat) (r : HistoryRow) :
    r ∈ acceptedRows hist itemtype sale ↔
      r ∈ hist ∧ r.state = .OFFERSTATE_ACCEPTED ∧ r.itemtype = itemtype ∧ r.sale = sale := by
  unfold acceptedRows
  simp [List.mem_filter]

/-- In a typed history, a row of the grouped query that lands on the key
(sale, itemId) is the row of the group (itemId, sale). -/
theorem statisticsQuery_key (hist : List HistoryRow) (htyped : ∀ r ∈ hist, r.typed)
    (sale itemId : Nat) (hsale : sale ≤ 1) (row : StatisticsRow)
    (hrow : row ∈ statisticsQuery hist)
    (hkey : (getNumber16 row.sale = 0 ↔ sale = 0) ∧ getNumber16 row.itemtype = itemId) :
    acceptedRows hist itemId sale ≠ [] ∧
      row = { sale := sale, itemtype := itemId,
              num := ((acceptedRows hist itemId sale).map (fun r => r.price)).length,
              min := minPrice ((acceptedRows hist itemId sale).map (fun r => r.price)),
              max := maxPrice ((acceptedRows hist itemId sale).map (fun r => r.price)),
              sum := ((acceptedRows hist itemId sale).map (fun r => r.price)).sum } := by
  obtain ⟨i, s, hne, e⟩ := (mem_statisticsQuery hist row).1 hrow
  obtain ⟨r, hr⟩ := List.exists_mem_of_ne_nil _ hne
  obtain ⟨hr1, _, hr3, hr4⟩ := (mem_acceptedRows hist i s r).1 hr
  obtain ⟨t1, t2, _⟩ := htyped r hr1
  subst e
  simp only [getNumber16] at hkey
  have hi : i = itemId := by omega
  have hs : s = sale := by omega
  subst hi hs
  exact ⟨hne, rfl⟩

/-- The entry that a refresh stores for a key with accepted rows, in a typed
history. -/
theorem updateStatistics_stored (hist : List HistoryRow) (cached : StatisticsCache)
    (itemId sale : Nat) (htyped : ∀ r ∈ hist, r.typed)
    (hne : acceptedRows hist itemId sale ≠ []) :
    getStatistics (updateStatistics hist cached) sale itemId
      = some (statisticsOfRow
          { sale := sale, itemtype := itemId,
            num := ((acceptedRows hist itemId sale).map (fun r => r.price)).length,
            min := minPrice ((acceptedRows hist itemId sale).map (fun r => r.price)),
            max := maxPrice ((acceptedRows hist itemId sale).map (fun r => r.price)),
            sum := ((acceptedRows hist itemId sale).map (fun r => r.price)).sum }) := by
  obtain ⟨r, hr⟩ := List.exists_mem_of_ne_nil _ hne
  obtain ⟨hr1, _, hr3, hr4⟩ := (mem_acceptedRows hist itemId sale r).1 hr
  obtain ⟨t1, t2, _⟩ := htyped r hr1
  have hsale : sale ≤ 1 := by omega
  have hitem : itemId < 65536 := by omega
  rw [updateStatistics_eq_foldl]
  apply getStatistics_foldl_stored
  · intro row hrow hkey
    rw [(statisticsQuery_key hist htyped sale itemId hsale row hrow hkey).2]
  · refine ⟨_, (mem_statisticsQuery hist _).2 ⟨itemId, sale, hne, rfl⟩, ?_, ?_⟩
    · simp only [getNumber16]
      omega
    · simp only [getNumber16]
      omega

/-! ## C5: the aggregates -/

/-- Claim C5.  In a history table whose rows hold a direction, a 16-bit item id and
a 32-bit price, and which has fewer than 2^32 rows, take an item id and a
direction with at least one row of state ACCEPTED.  After `updateStatistics`,
whatever the cache held before, the entry of that key exists and has
`numTransactions` equal to the number of those ACCEPTED rows, `totalPrice` equal to
the sum of their prices, `lowestPrice` equal to the least and `highestPrice` to the
greatest of their prices.  Rows in another state are not among `acceptedRows` and
so contribute to none of the four fields. -/
theorem updateStatistics_aggregates (hist : List HistoryRow) (cached : StatisticsCache)
    (itemId sale : Nat) (htyped : ∀ r ∈ hist, r.typed) (hlen : hist.length < 4294967296)
    (hex : ∃ r ∈ hist, r.state = .OFFERSTATE_ACCEPTED ∧ r.itemtype = itemId ∧ r.sale = sale) :
    ∃ st : MarketStatistics,
      getStatistics (updateStatistics hist cached) sale itemId = some st ∧
      st.numTransactions = (acceptedRows hist itemId sale).length ∧
      st.totalPrice = ((acceptedRows hist itemId sale).map (fun r => r.price)).sum ∧
      (∃ r ∈ acceptedRows hist itemId sale, r.price = st.lowestPrice) ∧
      (∀ r ∈ acceptedRows hist itemId sale, st.lowestPrice ≤ r.price) ∧
      (∃ r ∈ acceptedRows hist itemId sale, r.price = st.highestPrice) ∧
      (∀ r ∈ acceptedRows hist itemId sale, r.price ≤ st.highestPrice) := by
  obtain ⟨r0, hr0, hacc, hi, hs⟩ := hex
  have hmem0 : r0 ∈ acceptedRows hist itemId sale :=
    (mem_acceptedRows hist itemId sale r0).2 ⟨hr0, hacc, hi, hs⟩
  have hne : acceptedRows hist itemId sale ≠ [] := List.ne_nil_of_mem hmem0
  have hpne : (acceptedRows hist itemId sale).map (fun r => r.price) ≠ [] := by
    simpa using hne
  have hbound : ∀ x ∈ (acceptedRows hist itemId sale).map (fun r => r.price),
      x ≤ 4294967295 := by
    intro x hx
    obtain ⟨r, hr, e⟩ := List.mem_map.1 hx
    have := (htyped r ((mem_acceptedRows hist itemId sale r).1 hr).1).2.2
    omega
  have hlen2 : ((acceptedRows hist itemId sale).map (fun r => r.price)).length
      ≤ 4294967295 := by
    have := acceptedRows_length_le hist itemId sale
    simp only [List.length_map]
    omega
  have hsum := sum_le_of_bounded _ _ hbound
  have hsum2 : ((acceptedRows hist itemId sale).map (fun r => r.price)).sum
      < 18446744073709551616 := by
    have : ((acceptedRows hist itemId sale).map (fun r => r.price)).length * 4294967295
        ≤ 4294967295 * 4294967295 := Nat.mul_le_mul_right _ hlen2
    omega
  obtain ⟨hmin1, hmin2⟩ := minPrice_spec _ hpne
  obtain ⟨hmax1, hmax2⟩ := maxPrice_spec _ hpne
  have hminb := hbound _ hmin1
  have hmaxb := hbound _ hmax1
  refine ⟨_, updateStatistics_stored hist cached itemId sale htyped hne, ?_, ?_, ?_, ?_, ?_, ?_⟩
  · simp only [statisticsOfRow, getNumber32, List.length_map] at hlen2 ⊢
    omega
  · simp only [statisticsOfRow, getNumber64]
    omega
  · obtain ⟨r, hr, e⟩ := List.mem_map.1 hmin1
    refine ⟨r, hr, ?_⟩
    simp only [statisticsOfRow, getNumber32]
    omega
  · intro r hr
    have := hmin2 r.price (List.mem_map.2 ⟨r, hr, rfl⟩)
    simp only [statisticsOfRow, getNumber32]
    omega
  · obtain ⟨r, hr, e⟩ := List.mem_map.1 hmax1
    refine ⟨r, hr, ?_⟩
    simp only [statisticsOfRow, getNumber32]
    omega
  · intro r hr
    have := hmax2 r.price (List.mem_map.2 ⟨r, hr, rfl⟩)
    simp only [statisticsOfRow, getNumber32]
    omega

/-- Witness for C5: two accepted sales of item 10 at 100 and 300 and one expired
sale of item 10 give the entry with count 2, lowest 100, highest 300, total 400. -/
theorem updateStatistics_aggregates_witness :
    (∀ r ∈ exampleHistory, r.typed) ∧ exampleHistory.length < 4294967296 ∧
      (∃ r ∈ exampleHistory,
        r.state = .OFFERSTATE_ACCEPTED ∧ r.itemtype = 10 ∧ r.sale = MARKETACTION_SELL) ∧
      (∃ st : MarketStatistics,
        getStatistics (updateStatistics exampleHistory emptyCache) MARKETACTION_SELL 10
          = some st ∧
        st.numTransactions = (acceptedRows exampleHistory 10 MARKETACTION_SELL).length) ∧
      getSaleStatistics (updateStatistics exampleHistory emptyCache) 10
        = some { numTransactions := 2, lowestPrice := 100, highestPrice := 300,
                 totalPrice := 400 } := by
  obtain ⟨st, h1, h2, _⟩ :=
    updateStatistics_aggregates exampleHistory emptyCache 10 MARKETACTION_SELL
      (by decide) (by decide) (by decide)
  exact ⟨by decide, by decide, by decide, ⟨st, h1, h2⟩, by decide⟩

/-! ## C4: what a refresh does to the cache -/

/-- Claim C4, amended.  In a history whose rows hold a direction, a 16-bit item id
and a 32-bit price, and for a direction BUY or SELL: after `updateStatistics` a key
with at least one ACCEPTED row has an entry; a key with no ACCEPTED row has exactly
what the cache held for it before the refresh, so an entry cached earlier stays
(the refresh writes into the two maps and never removes an entry).  After a
refresh of the empty cache, a key has an entry if and only if the history has at
least one ACCEPTED row for it. -/
theorem updateStatistics_merges (hist : List HistoryRow) (cached : StatisticsCache)
    (itemId sale : Nat) (htyped : ∀ r ∈ hist, r.typed)
    (hsale : sale = MARKETACTION_BUY ∨ sale = MARKETACTION_SELL) :
    ((∃ r ∈ hist, r.state = .OFFERSTATE_ACCEPTED ∧ r.itemtype = itemId ∧ r.sale = sale) →
        (getStatistics (updateStatistics hist cached) sale itemId).isSome = true) ∧
      ((¬ ∃ r ∈ hist, r.state = .OFFERSTATE_ACCEPTED ∧ r.itemtype = itemId ∧ r.sale = sale) →
        getStatistics (updateStatistics hist cached) sale itemId
          = getStatistics cached sale itemId) ∧
      ((getStatistics (updateStatistics hist emptyCache) sale itemId).isSome = true ↔
        ∃ r ∈ hist, r.state = .OFFERSTATE_ACCEPTED ∧ r.itemtype = itemId ∧ r.sale = sale) := by
  have hsale1 : sale ≤ 1 := by
    rcases hsale with h | h <;> rw [h] <;> decide
  have hpresent : ∀ c : StatisticsCache,
      (∃ r ∈ hist, r.state = .OFFERSTATE_ACCEPTED ∧ r.itemtype = itemId ∧ r.sale = sale) →
      (getStatistics (updateStatistics hist c) sale itemId).isSome = true := by
    rintro c ⟨r0, hr0, hacc, hi, hs⟩
    have hmem0 : r0 ∈ acceptedRows hist itemId sale :=
      (mem_acceptedRows hist itemId sale r0).2 ⟨hr0, hacc, hi, hs⟩
    rw [updateStatistics_stored hist c itemId sale htyped (List.ne_nil_of_mem hmem0)]
    rfl
  have habsent : ∀ c : StatisticsCache,
      (¬ ∃ r ∈ hist, r.state = .OFFERSTATE_ACCEPTED ∧ r.itemtype = itemId ∧ r.sale = sale) →
      getStatistics (updateStatistics hist c) sale itemId = getStatistics c sale itemId := by
    intro c hno
    rw [updateStatistics_eq_foldl]
    apply getStatistics_foldl_unchanged
    intro row hrow hkey
    obtain ⟨hne, _⟩ := statisticsQuery_key hist htyped sale itemId hsale1 row hrow hkey
    obtain ⟨r, hr⟩ := List.exists_mem_of_ne_nil _ hne
    obtain ⟨hr1, hr2, hr3, hr4⟩ := (mem_acceptedRows hist itemId sale r).1 hr
    exact hno ⟨r, hr1, hr2, hr3, hr4⟩
  refine ⟨hpresent cached, habsent cached, ?_, hpresent emptyCache⟩
  intro hsome
  by_contra hno
  rw [habsent emptyCache hno] at hsome
  have hempty : getStatistics emptyCache sale itemId = none := by
    unfold getStatistics getPurchaseStatistics getSaleStatistics emptyCache
    split_ifs <;> rfl
  rw [hempty] at hsome
  simp at hsome

/-- Witness for C4: after a first refresh on `exampleHistory`, a second refresh on
`laterHistory` gives item 11 a purchase entry and leaves the purchase key of item
10, which has no accepted row, as it was. -/
theorem updateStatistics_merges_witness :
    (∀ r ∈ laterHistory, r.typed) ∧
      (MARKETACTION_BUY = MARKETACTION_BUY ∨ MARKETACTION_BUY = MARKETACTION_SELL) ∧
      (¬ ∃ r ∈ laterHistory,
        r.state = .OFFERSTATE_ACCEPTED ∧ r.itemtype = 10 ∧ r.sale = MARKETACTION_BUY) ∧
      getStatistics (updateStatistics laterHistory (updateStatistics exampleHistory emptyCache))
          MARKETACTION_BUY 10
        = getStatistics (updateStatistics exampleHistory emptyCache) MARKETACTION_BUY 10 :=
  ⟨by decide, by decide, by decide,
    (updateStatistics_merges laterHistory (updateStatistics exampleHistory emptyCache) 10
      MARKETACTION_BUY (by decide) (by decide)).2.1 (by decide)⟩

/-- Counterexample to C4 as stated: a first refresh on `exampleHistory` caches the
sale entry of item 10; in `laterHistory` item 10 has no ACCEPTED row, and after a
refresh on it `getSaleStatistics 10` still returns the entry of the first refresh. -/
theorem updateStatistics_keeps_stale_entry :
    (¬ ∃ r ∈ laterHistory,
        r.state = .OFFERSTATE_ACCEPTED ∧ r.itemtype = 10 ∧ r.sale = MARKETACTION_SELL) ∧
      getSaleStatistics
          (updateStatistics laterHistory (updateStatistics exampleHistory emptyCache)) 10
        = some { numTransactions := 2, lowestPrice := 100, highestPrice := 300,
                 totalPrice := 400 } :=
  ⟨by decide, by decide⟩

end IOMarket
